import Mathlib

/-!
Verification of the task-table state machine of scheduler.c (grivera90/scheduler).

The embedding below translates the C source into Lean definitions:

* machine integers (uint32_t counters, uint8_t flag register) are modelled as
  Nat with explicit reductions modulo 2^32 (resp. 2^8) exactly where the C
  arithmetic can wrap;
* the static task table is a SchedState record holding the counter, the
  bit-packed status register and the task array (a list whose length plays the
  role of the build-time constant MAX_TASKS);
* function pointers are modelled as Option Nat (none is the NULL pointer,
  some f is a concrete callback identity); the opaque void pointer parameter
  is likewise an Option Nat;
* a callback invocation is modelled by an environment eff : Nat -> status ->
  status giving the status the callback leaves in its own slot (a callback
  that does not mutate scheduler state is the identity environment idEff);
  each invocation is also recorded in a ghost event list (slot index, the
  function pointer that was called, and the slot status at call time) so that
  theorems can talk about which callbacks a dispatch pass invoked;
* out-of-range array accesses and calls through a NULL function pointer are
  undefined behavior in C; the model makes them inert no-ops (the event is
  still recorded for NULL calls so that their absence can be proved).
-/

/-- Modelled from the spec: the task-status enumeration is declared in
scheduler.h, which is not under src/; the spec lists the five states
(Stopped, RunAlways, Ready, Running, Suspended) with Stopped the
initial/neutral state, and scheduler.c uses exactly these five names. -/
inductive task_status_t where
| STOPPED
| RUN_ALWAYS
| READY
| RUNNING
| SUSPENDED
deriving DecidableEq

open task_status_t

/-- Modelled from the spec: the handle structure (scheduler.h) carrying the
task's table index and the caller-supplied parameter pointer, as used through
task_handler.index and task_handler.parameter in scheduler.c. -/
structure task_handler_t where
  index : Nat
  parameter : Option Nat
deriving DecidableEq

/-- Modelled from the spec: the task record (scheduler.h) with the fields
scheduler.c reads and writes: the callback pointer ptask, the diagnostic
name, the delay and period counters (uint32_t), the status and the handle. -/
structure task_t where
  ptask : Option Nat
  task_name : Option String
  delay : Nat
  period : Nat
  status : task_status_t
  task_handler : task_handler_t
deriving DecidableEq

/-- The scheduler's process-wide mutable state: tasks_counter and
scheduler_status are the two static variables of scheduler.c, task_array is
the static task table; its length is the build-time constant MAX_TASKS. -/
structure SchedState where
  tasks_counter : Nat
  scheduler_status : Nat
  task_array : List task_t
deriving DecidableEq

/-- Ghost record of one callback invocation performed by dispatch:
the slot index, the function pointer called, and the slot status at the
moment of the call. -/
abbrev Event : Type := Nat × Option Nat × task_status_t

/-- Return code SCH_STATUS_OK of the sch_sts_t enumeration. -/
def SCH_STATUS_OK : Int := 0

/-- Return code SCH_ERROR of the sch_sts_t enumeration. -/
def SCH_ERROR : Int := -1

/-- Increment of the uint32_t tasks_counter, reduced mod 2^32. -/
def u32succ (n : Nat) : Nat := (n + 1) % 4294967296

/-- Decrement of the uint32_t tasks_counter: in C, tasks_counter-- on the
value 0 wraps to 2^32 - 1. -/
def u32pred (n : Nat) : Nat := (n + 4294967296 - 1) % 4294967296

/-- Macro BIT_SET on the uint8_t scheduler_status register. -/
def BIT_SET (reg bit : Nat) : Nat := (reg ||| (1 <<< bit)) % 256

/-- Macro BIT_CLEAR on the uint8_t scheduler_status register (bits 0..4 are
the only ones used, so the mask 255 - 2^bit is the uint8 truncation of the
complement mask of the C source). -/
def BIT_CLEAR (reg bit : Nat) : Nat := reg &&& (255 - ((1 <<< bit) % 256))

/-- Flag bit SCH_TASK_CREATE_FLAG of the sch_flags_t enumeration. -/
def SCH_TASK_CREATE_FLAG : Nat := 1

/-- Flag bit SCH_STATUS_FLAG of the sch_flags_t enumeration. -/
def SCH_STATUS_FLAG : Nat := 0

/-- Flag bit SCH_RUN_FLAG of the sch_flags_t enumeration. -/
def SCH_RUN_FLAG : Nat := 4

/-- Translation of scheduler_delete_task (scheduler.c lines 272-287): if the
slot's callback is non-NULL, clear the callback, the handle parameter and
index, the delay, set the status to STOPPED and decrement tasks_counter;
otherwise do nothing.  The period and the name are NOT cleared.  The C code
performs no bounds check; an out-of-range index is undefined behavior,
modelled as a no-op.  The return value is always SCH_STATUS_OK. -/
def scheduler_delete_task (st : SchedState) (index : Nat) : SchedState × Int :=
  match st.task_array[index]? with
  | none => (st, SCH_STATUS_OK)
  | some t =>
    if t.ptask ≠ none then
      ({ st with
          task_array := st.task_array.set index
            { t with ptask := none,
                     task_handler := { index := 0, parameter := none },
                     delay := 0,
                     status := STOPPED },
          tasks_counter := u32pred st.tasks_counter }, SCH_STATUS_OK)
    else (st, SCH_STATUS_OK)

/-- Record written into the table slot by scheduler_add_task (the field
assignments of scheduler.c lines 241-256): period == 0 is routed to
RUN_ALWAYS, period > 0 to STOPPED, and the handle records the slot index and
the caller's parameter. -/
def newTask (task : Option Nat) (task_name : Option String)
    (task_param : Option Nat) (delay period slot : Nat) : task_t :=
  { ptask := task, task_name := task_name, delay := delay, period := period,
    status := if period = 0 then RUN_ALWAYS else STOPPED,
    task_handler := { index := slot, parameter := task_param } }

/-- Translation of scheduler_add_task (scheduler.c lines 221-270): if the
table is not full, scan all MAX_TASKS slots for a slot whose ptask equals the
new callback pointer (failing with SCH_ERROR on a match), then write newTask
into the slot at index tasks_counter and increment tasks_counter.  A full
table fails with SCH_ERROR. -/
def scheduler_add_task (st : SchedState) (task : Option Nat)
    (task_name : Option String) (task_param : Option Nat)
    (delay period : Nat) : SchedState × Int :=
  if st.tasks_counter < st.task_array.length then
    if st.task_array.any (fun t => t.ptask == task) then
      ({ st with scheduler_status := BIT_SET st.scheduler_status SCH_TASK_CREATE_FLAG },
       SCH_ERROR)
    else
      ({ st with
          task_array := st.task_array.set st.tasks_counter
            (newTask task task_name task_param delay period st.tasks_counter),
          tasks_counter := u32succ st.tasks_counter,
          scheduler_status := BIT_CLEAR st.scheduler_status SCH_TASK_CREATE_FLAG },
       SCH_STATUS_OK)
  else
    ({ st with scheduler_status :=
        BIT_SET (BIT_SET st.scheduler_status SCH_TASK_CREATE_FLAG) SCH_STATUS_FLAG },
     SCH_ERROR)

/-- Readiness transition of scheduler_update (scheduler.c lines 134-137):
a slot whose status is neither RUN_ALWAYS nor SUSPENDED becomes READY. -/
def readyTransition (t : task_t) : task_t :=
  if t.status ≠ RUN_ALWAYS ∧ t.status ≠ SUSPENDED then { t with status := READY } else t

/-- Per-slot body of the tick loop of scheduler_update (scheduler.c lines
128-148): active slots with delay 0 take the readiness transition and are
re-armed to period when period > 0 (readyTransition leaves the period
unchanged, so the re-arm test on the updated slot is the test on t.period);
active slots with a nonzero delay are decremented; inactive slots are
untouched. -/
def tickTask (t : task_t) : task_t :=
  if t.ptask ≠ none then
    if t.delay = 0 then
      if 0 < t.period then { readyTransition t with delay := t.period }
      else readyTransition t
    else { t with delay := t.delay - 1 }
  else t

/-- Translation of scheduler_update (scheduler.c lines 123-152): the loop
runs over all MAX_TASKS slots and each slot is updated independently, so it
is a map of tickTask over the table.  The return value is always
SCH_STATUS_OK. -/
def scheduler_update (st : SchedState) : SchedState × Int :=
  ({ st with task_array := st.task_array.map tickTask }, SCH_STATUS_OK)

/-- Iterated tick: k consecutive calls of scheduler_update. -/
def tickN (k : Nat) (st : SchedState) : SchedState :=
  (fun s => (scheduler_update s).1)^[k] st

/-- The zero-initialized static state of scheduler.c: tasks_counter = 0,
scheduler_status = 0, and task_array[MAX_TASKS] = \x7bNULL\x7d, which
zero-fills every record (NULL pointers, zero counters, the zero status,
which the spec identifies as Stopped). -/
def pristineState (MAX : Nat) : SchedState :=
  { tasks_counter := 0, scheduler_status := 0,
    task_array := List.replicate MAX
      { ptask := none, task_name := none, delay := 0, period := 0,
        status := STOPPED, task_handler := { index := 0, parameter := none } } }

/-- Translation of scheduler_init (scheduler.c lines 157-189): reset the
counter and the flag register, run scheduler_delete_task on every slot
(scheduler_delete_task always returns SCH_STATUS_OK, so the error branch of
the loop is dead and the final flag writes are the two BIT_CLEARs), and
return SCH_STATUS_OK.  The registration of the tick handler with the board
support layer is an external side effect outside the table model.  The two
closing BIT_CLEARs of the success path are factored out as clearRunFlags. -/
def clearRunFlags (s : SchedState) : SchedState :=
  { s with scheduler_status :=
      BIT_CLEAR (BIT_CLEAR s.scheduler_status SCH_STATUS_FLAG) SCH_RUN_FLAG }

def scheduler_init (st : SchedState) : SchedState × Int :=
  (clearRunFlags
    ((List.range st.task_array.length).foldl
      (fun s i => (scheduler_delete_task s i).1)
      { st with tasks_counter := 0, scheduler_status := 0 }),
   SCH_STATUS_OK)

/-- Status of the slot at an index, none when the index is out of range. -/
def statusAt (st : SchedState) (index : Nat) : Option task_status_t :=
  (st.task_array[index]?).map task_t.status

/-- Period of the slot at an index, none when the index is out of range. -/
def periodAt (st : SchedState) (index : Nat) : Option Nat :=
  (st.task_array[index]?).map task_t.period

/-- One callback invocation (*task_array[index].ptask)(&task_array[index].task_handler)
of scheduler_dispatch_task: the callback runs with the slot's current status
and may leave a new status in its own slot, as given by the environment eff.
A call through a NULL pointer is undefined behavior in C; it is modelled as
leaving the state unchanged, and the ghost event still records it so that its
absence in reachable states is provable. -/
def invokeCallback (eff : Nat → task_status_t → task_status_t)
    (st : SchedState) (index : Nat) : SchedState × List Event :=
  match st.task_array[index]? with
  | some t =>
    match t.ptask with
    | some f =>
      ({ st with task_array := st.task_array.set index { t with status := eff f t.status } },
       [(index, some f, t.status)])
    | none => (st, [(index, none, t.status)])
  | none => (st, [])

/-- Assignment task_array[index].status = x of scheduler_dispatch_task. -/
def setStatus (st : SchedState) (index : Nat) (x : task_status_t) : SchedState :=
  match st.task_array[index]? with
  | some t => { st with task_array := st.task_array.set index { t with status := x } }
  | none => st

/-- Ending of the READY case of scheduler_dispatch_task: the status is set
back to STOPPED when it is still RUNNING after the callback returned
(scheduler.c lines 306-309). -/
def stopIfRunning (st : SchedState) (index : Nat) : SchedState :=
  if statusAt st index = some RUNNING then setStatus st index STOPPED else st

/-- One-shot removal of the READY case of scheduler_dispatch_task: the slot
is deleted when its period is 0 (scheduler.c lines 311-314). -/
def removeIfOneShot (st : SchedState) (index : Nat) : SchedState :=
  if periodAt st index = some 0 then (scheduler_delete_task st index).1 else st

/-- Body of the READY case of scheduler_dispatch_task (scheduler.c lines
300-315): set the slot to RUNNING, invoke the callback, set the slot back to
STOPPED if the status is still RUNNING, and delete the slot if its period is
0. -/
def readyBranch (eff : Nat → task_status_t → task_status_t)
    (st : SchedState) (index : Nat) : SchedState × List Event :=
  (removeIfOneShot
    (stopIfRunning (invokeCallback eff (setStatus st index RUNNING) index).1 index)
    index,
   (invokeCallback eff (setStatus st index RUNNING) index).2)

/-- One iteration of the dispatch loop (scheduler.c lines 295-315), at a
fixed index: a RUN_ALWAYS slot gets its callback invoked; then (a separate
if, re-reading the status after that invocation) a READY slot runs the
readyBranch. -/
def dispatchBody (eff : Nat → task_status_t → task_status_t)
    (st : SchedState) (index : Nat) : SchedState × List Event :=
  if statusAt st index = some RUN_ALWAYS then
    (if statusAt (invokeCallback eff st index).1 index = some READY then
      ((readyBranch eff (invokeCallback eff st index).1 index).1,
        (invokeCallback eff st index).2 ++
          (readyBranch eff (invokeCallback eff st index).1 index).2)
     else invokeCallback eff st index)
  else
    (if statusAt st index = some READY then readyBranch eff st index else (st, []))

/-- The dispatch loop for(index = 0; index < tasks_counter; index++) with the
loop bound re-read every iteration (a one-shot deletion inside the body
shrinks it).  The fuel argument bounds the number of iterations. -/
def dispatchLoop (eff : Nat → task_status_t → task_status_t) :
    SchedState → Nat → Nat → SchedState × List Event
  | st, _, 0 => (st, [])
  | st, index, fuel + 1 =>
    if index < st.tasks_counter then
      ((dispatchLoop eff (dispatchBody eff st index).1 (index + 1) fuel).1,
        (dispatchBody eff st index).2 ++
          (dispatchLoop eff (dispatchBody eff st index).1 (index + 1) fuel).2)
    else (st, [])

/-- Translation of scheduler_dispatch_task (scheduler.c lines 289-317).  The
initial tasks_counter is enough fuel: the index increases by one per
iteration while the bound tasks_counter never increases during the pass
(deletions inside the body only decrement it, and every uint32_t value is
below 2^32), so the loop exits within tasks_counter iterations; when the
fuel runs out the guard index < tasks_counter has just become false as well. -/
def scheduler_dispatch_task (eff : Nat → task_status_t → task_status_t)
    (st : SchedState) : SchedState × List Event :=
  dispatchLoop eff st 0 st.tasks_counter

/-- Callback environment of a callback that does not mutate scheduler state:
the slot status is left exactly as dispatch set it. -/
def idEff : Nat → task_status_t → task_status_t := fun _ s => s

/-- One call of the scheduler's public mutating operations, with callback
behavior eff for dispatch passes. -/
inductive SchedStep (eff : Nat → task_status_t → task_status_t) :
    SchedState → SchedState → Prop where
| add : ∀ s cb nm pm d p, SchedStep eff s (scheduler_add_task s cb nm pm d p).1
| del : ∀ s i, SchedStep eff s (scheduler_delete_task s i).1
| tick : ∀ s, SchedStep eff s (scheduler_update s).1
| disp : ∀ s, SchedStep eff s (scheduler_dispatch_task eff s).1

/-- States reachable from a freshly initialized scheduler with table capacity
MAX by any sequence of register, remove, tick and dispatch calls. -/
def Reachable (eff : Nat → task_status_t → task_status_t) (MAX : Nat)
    (s : SchedState) : Prop :=
  Relation.ReflTransGen (SchedStep eff) (scheduler_init (pristineState MAX)).1 s

/-- One call of register, tick or dispatch (no remove), with callbacks that
do not mutate scheduler state. -/
inductive NoRemoveStep : SchedState → SchedState → Prop where
| add : ∀ s cb nm pm d p, NoRemoveStep s (scheduler_add_task s cb nm pm d p).1
| tick : ∀ s, NoRemoveStep s (scheduler_update s).1
| disp : ∀ s, NoRemoveStep s (scheduler_dispatch_task idEff s).1

/-- States reachable from a freshly initialized scheduler without any remove
call. -/
def NoRemoveReachable (MAX : Nat) (s : SchedState) : Prop :=
  Relation.ReflTransGen NoRemoveStep (scheduler_init (pristineState MAX)).1 s

/-- The slot at index i holds the callback pointer c. -/
def slotHolds (s : SchedState) (i : Nat) (c : Nat) : Prop :=
  (s.task_array[i]?).map task_t.ptask = some (some c)

/-- One scheduler step after which the slot at index i still holds the
callback c: the chain of such steps expresses that a task remains
continuously registered. -/
def holdsStep (eff : Nat → task_status_t → task_status_t) (i c : Nat) :
    SchedState → SchedState → Prop :=
  fun a b => SchedStep eff a b ∧ slotHolds b i c

/-- Number of active slots (slots with a non-NULL callback). -/
def activeCount (st : SchedState) : Nat :=
  st.task_array.countP (fun t => t.ptask.isSome)

/-- Status a slot is left with by the READY case of dispatch when the task
is not a one-shot: STOPPED when the callback left the status at RUNNING,
otherwise whatever status the callback wrote. -/
def postStatus (eff : Nat → task_status_t → task_status_t) (f : Nat) : task_status_t :=
  if eff f RUNNING = RUNNING then STOPPED else eff f RUNNING

/-- State framing of one dispatch-loop iteration step that does not delete:
the array length, the counter and every slot other than index i are kept. -/
def FrameAt (i : Nat) (st stB : SchedState) : Prop :=
  stB.task_array.length = st.task_array.length ∧
  stB.tasks_counter = st.tasks_counter ∧
  ∀ j, j ≠ i → stB.task_array[j]? = st.task_array[j]?

/-- State framing of a whole dispatch-loop iteration: as FrameAt, except
that the counter may also have been decremented by the one-shot removal. -/
def DispSkel (i : Nat) (st stB : SchedState) : Prop :=
  stB.task_array.length = st.task_array.length ∧
  (stB.tasks_counter = st.tasks_counter ∨ stB.tasks_counter = u32pred st.tasks_counter) ∧
  ∀ j, j ≠ i → stB.task_array[j]? = st.task_array[j]?

/-- Master invariant of the task table: the array length is the build-time
capacity, the counter is bounded by the capacity, the number of active slots
is bounded by the counter, and every inactive slot carries the neutral
values that scheduler_delete_task writes (status STOPPED, delay 0, cleared
handle). -/
def MI (MAX : Nat) (st : SchedState) : Prop :=
  st.task_array.length = MAX ∧
  st.tasks_counter ≤ MAX ∧
  activeCount st ≤ st.tasks_counter ∧
  ∀ t ∈ st.task_array, t.ptask = none →
    t.status = STOPPED ∧ t.delay = 0 ∧ t.task_handler = { index := 0, parameter := none }

/-- Invariant of remove-free executions: the master invariant holds, a slot
is active exactly when its index is below the task counter (the table is a
gap-free prefix), and every active slot with period 0 is RUN_ALWAYS (so the
one-shot removal branch of dispatch never fires). -/
def NR (MAX : Nat) (st : SchedState) : Prop :=
  MI MAX st ∧
  ∀ (i : Nat) (t : task_t), st.task_array[i]? = some t →
    ((t.ptask ≠ none ↔ i < st.tasks_counter) ∧
     (t.ptask ≠ none → t.period = 0 → t.status = RUN_ALWAYS))

theorem u32succ_eq {n : Nat} (h : n + 1 < 4294967296) : u32succ n = n + 1 :=
  Nat.mod_eq_of_lt h

theorem u32succ_lt (n : Nat) : u32succ n < 4294967296 :=
  Nat.mod_lt _ (by norm_num)

theorem u32pred_eq {n : Nat} (h0 : 0 < n) (h : n < 4294967296) : u32pred n = n - 1 := by
  unfold u32pred
  rw [show n + 4294967296 - 1 = (n - 1) + 4294967296 by omega, Nat.add_mod_right]
  exact Nat.mod_eq_of_lt (by omega)

theorem u32pred_lt (n : Nat) : u32pred n < 4294967296 :=
  Nat.mod_lt _ (by norm_num)

theorem list_set_self {α : Type} {l : List α} {i : Nat} {a : α}
    (h : l[i]? = some a) : l.set i a = l := by
  induction l generalizing i with
  | nil => simp at h
  | cons x xs ih =>
    cases i with
    | zero => simp at h; simp [h]
    | succ n => simp at h; simp [ih h]

/-- Record left in a slot by the clearing assignments of
scheduler_delete_task: the callback, handle, delay and status are reset, the
period and the name are kept. -/
def clearedTask (t : task_t) : task_t :=
  { t with ptask := none,
           task_handler := { index := 0, parameter := none },
           delay := 0, status := STOPPED }

theorem cleared_slot_delete (st : SchedState) (i : Nat) (t : task_t)
    (hslot : st.task_array[i]? = some t) (ha : t.ptask ≠ none) :
    (scheduler_delete_task st i).1 =
      { st with
          task_array := st.task_array.set i (clearedTask t),
          tasks_counter := u32pred st.tasks_counter } := by
  unfold scheduler_delete_task
  rw [hslot]
  simp [ha, clearedTask]

theorem delete_inactive (st : SchedState) (i : Nat)
    (h : ∀ t, st.task_array[i]? = some t → t.ptask = none) :
    (scheduler_delete_task st i).1 = st := by
  unfold scheduler_delete_task
  cases hslot : st.task_array[i]? with
  | none => rfl
  | some t => simp [h t hslot]

theorem delete_cases (st : SchedState) (i : Nat) :
    (scheduler_delete_task st i).1 = st ∨
      ∃ t, st.task_array[i]? = some t ∧ t.ptask ≠ none ∧
        (scheduler_delete_task st i).1 =
          { st with
              task_array := st.task_array.set i (clearedTask t),
              tasks_counter := u32pred st.tasks_counter } := by
  cases hslot : st.task_array[i]? with
  | none =>
    exact Or.inl (delete_inactive st i (fun t ht => by rw [hslot] at ht; cases ht))
  | some t =>
    by_cases ha : t.ptask = none
    · exact Or.inl (delete_inactive st i
        (fun u hu => by rw [hslot] at hu; cases hu; exact ha))
    · exact Or.inr ⟨t, rfl, ha, cleared_slot_delete st i t hslot ha⟩

theorem delete_length (st : SchedState) (i : Nat) :
    (scheduler_delete_task st i).1.task_array.length = st.task_array.length := by
  rcases delete_cases st i with h | ⟨t, _, _, h⟩ <;> rw [h] <;> simp

theorem delete_frame (st : SchedState) (i j : Nat) (hij : j ≠ i) :
    (scheduler_delete_task st i).1.task_array[j]? = st.task_array[j]? := by
  rcases delete_cases st i with h | ⟨t, _, _, h⟩ <;> rw [h]
  exact List.getElem?_set_ne (fun h => hij h.symm)

theorem delete_flags (st : SchedState) (i : Nat) :
    (scheduler_delete_task st i).1.scheduler_status = st.scheduler_status := by
  rcases delete_cases st i with h | ⟨t, _, _, h⟩ <;> rw [h]

theorem add_full (st : SchedState) (cb : Option Nat) (nm : Option String)
    (pm : Option Nat) (d p : Nat)
    (h : ¬ st.tasks_counter < st.task_array.length) :
    scheduler_add_task st cb nm pm d p =
      ({ st with scheduler_status :=
          BIT_SET (BIT_SET st.scheduler_status SCH_TASK_CREATE_FLAG) SCH_STATUS_FLAG },
       SCH_ERROR) := by
  unfold scheduler_add_task
  rw [if_neg h]

theorem add_dup (st : SchedState) (cb : Option Nat) (nm : Option String)
    (pm : Option Nat) (d p : Nat)
    (h1 : st.tasks_counter < st.task_array.length)
    (h2 : st.task_array.any (fun t => t.ptask == cb) = true) :
    scheduler_add_task st cb nm pm d p =
      ({ st with scheduler_status := BIT_SET st.scheduler_status SCH_TASK_CREATE_FLAG },
       SCH_ERROR) := by
  unfold scheduler_add_task
  rw [if_pos h1, if_pos h2]

theorem add_success (st : SchedState) (cb : Option Nat) (nm : Option String)
    (pm : Option Nat) (d p : Nat)
    (h1 : st.tasks_counter < st.task_array.length)
    (h2 : st.task_array.any (fun t => t.ptask == cb) = false) :
    scheduler_add_task st cb nm pm d p =
      ({ st with
          task_array := st.task_array.set st.tasks_counter
            (newTask cb nm pm d p st.tasks_counter),
          tasks_counter := u32succ st.tasks_counter,
          scheduler_status := BIT_CLEAR st.scheduler_status SCH_TASK_CREATE_FLAG },
       SCH_STATUS_OK) := by
  unfold scheduler_add_task
  rw [if_pos h1, if_neg (by simp [h2])]

theorem add_ret_ok (st : SchedState) (cb : Option Nat) (nm : Option String)
    (pm : Option Nat) (d p : Nat)
    (h : (scheduler_add_task st cb nm pm d p).2 = SCH_STATUS_OK) :
    st.tasks_counter < st.task_array.length ∧
      st.task_array.any (fun t => t.ptask == cb) = false := by
  by_cases h1 : st.tasks_counter < st.task_array.length
  · cases h2 : st.task_array.any (fun t => t.ptask == cb) with
    | false => exact ⟨h1, rfl⟩
    | true =>
      rw [add_dup st cb nm pm d p h1 h2] at h
      have h3 : SCH_ERROR = SCH_STATUS_OK := h
      exact absurd h3 (by decide)
  · rw [add_full st cb nm pm d p h1] at h
    have h3 : SCH_ERROR = SCH_STATUS_OK := h
    exact absurd h3 (by decide)

theorem readyTransition_fields (t : task_t) :
    (readyTransition t).ptask = t.ptask ∧ (readyTransition t).period = t.period ∧
      (readyTransition t).task_name = t.task_name ∧
      (readyTransition t).task_handler = t.task_handler ∧
      (readyTransition t).delay = t.delay := by
  unfold readyTransition
  by_cases hs : t.status ≠ RUN_ALWAYS ∧ t.status ≠ SUSPENDED <;> simp [hs]

theorem tickTask_fields (t : task_t) :
    (tickTask t).ptask = t.ptask ∧ (tickTask t).period = t.period ∧
      (tickTask t).task_name = t.task_name ∧
      (tickTask t).task_handler = t.task_handler := by
  obtain ⟨f1, f2, f3, f4, f5⟩ := readyTransition_fields t
  unfold tickTask
  by_cases ha : t.ptask = none
  · simp [ha]
  · by_cases hd : t.delay = 0
    · by_cases hp : 0 < t.period <;> simp [ha, hd, hp, f1, f2, f3, f4]
    · simp [ha, hd]

theorem update_slot (st : SchedState) (i : Nat) :
    (scheduler_update st).1.task_array[i]? = (st.task_array[i]?).map tickTask := by
  simp [scheduler_update]

theorem update_counter (st : SchedState) :
    (scheduler_update st).1.tasks_counter = st.tasks_counter := rfl

theorem update_length (st : SchedState) :
    (scheduler_update st).1.task_array.length = st.task_array.length := by
  simp [scheduler_update]

theorem setStatus_eq (st : SchedState) (i : Nat) (x : task_status_t) (t : task_t)
    (hslot : st.task_array[i]? = some t) :
    setStatus st i x = { st with task_array := st.task_array.set i { t with status := x } } := by
  unfold setStatus
  rw [hslot]

theorem setStatus_oob (st : SchedState) (i : Nat) (x : task_status_t)
    (h : st.task_array[i]? = none) : setStatus st i x = st := by
  unfold setStatus
  rw [h]

theorem setStatus_cases (st : SchedState) (i : Nat) (x : task_status_t) :
    setStatus st i x = st ∨
      ∃ t, st.task_array[i]? = some t ∧
        setStatus st i x = { st with task_array := st.task_array.set i { t with status := x } } := by
  cases hslot : st.task_array[i]? with
  | none => exact Or.inl (setStatus_oob st i x hslot)
  | some t => exact Or.inr ⟨t, rfl, setStatus_eq st i x t hslot⟩

theorem invoke_some_cb (eff : Nat → task_status_t → task_status_t)
    (st : SchedState) (i : Nat) (t : task_t) (f : Nat)
    (hslot : st.task_array[i]? = some t) (hf : t.ptask = some f) :
    invokeCallback eff st i =
      ({ st with task_array := st.task_array.set i { t with status := eff f t.status } },
       [(i, some f, t.status)]) := by
  unfold invokeCallback
  rw [hslot]
  simp [hf]

theorem invoke_null_cb (eff : Nat → task_status_t → task_status_t)
    (st : SchedState) (i : Nat) (t : task_t)
    (hslot : st.task_array[i]? = some t) (hf : t.ptask = none) :
    invokeCallback eff st i = (st, [(i, none, t.status)]) := by
  unfold invokeCallback
  rw [hslot]
  simp [hf]

theorem invoke_oob (eff : Nat → task_status_t → task_status_t)
    (st : SchedState) (i : Nat) (h : st.task_array[i]? = none) :
    invokeCallback eff st i = (st, []) := by
  unfold invokeCallback
  rw [h]

theorem invoke_cases (eff : Nat → task_status_t → task_status_t)
    (st : SchedState) (i : Nat) :
    invokeCallback eff st i = (st, []) ∨
      (∃ t, st.task_array[i]? = some t ∧ t.ptask = none ∧
        invokeCallback eff st i = (st, [(i, none, t.status)])) ∨
      (∃ t f, st.task_array[i]? = some t ∧ t.ptask = some f ∧
        invokeCallback eff st i =
          ({ st with task_array := st.task_array.set i { t with status := eff f t.status } },
           [(i, some f, t.status)])) := by
  cases hslot : st.task_array[i]? with
  | none => exact Or.inl (invoke_oob eff st i hslot)
  | some t =>
    cases hf : t.ptask with
    | none => exact Or.inr (Or.inl ⟨t, rfl, hf, invoke_null_cb eff st i t hslot hf⟩)
    | some f => exact Or.inr (Or.inr ⟨t, f, rfl, hf, invoke_some_cb eff st i t f hslot hf⟩)

theorem frameAt_refl (i : Nat) (st : SchedState) : FrameAt i st st :=
  ⟨rfl, rfl, fun _ _ => rfl⟩

theorem frameAt_trans {i : Nat} {st1 st2 st3 : SchedState}
    (h1 : FrameAt i st1 st2) (h2 : FrameAt i st2 st3) : FrameAt i st1 st3 :=
  ⟨h2.1.trans h1.1, h2.2.1.trans h1.2.1, fun j hj => (h2.2.2 j hj).trans (h1.2.2 j hj)⟩

theorem frameAt_dispSkel {i : Nat} {st1 st2 : SchedState} (h : FrameAt i st1 st2) :
    DispSkel i st1 st2 :=
  ⟨h.1, Or.inl h.2.1, h.2.2⟩

theorem frameAt_trans_dispSkel {i : Nat} {st1 st2 st3 : SchedState}
    (h1 : FrameAt i st1 st2) (h2 : DispSkel i st2 st3) : DispSkel i st1 st3 := by
  refine ⟨h2.1.trans h1.1, ?_, fun j hj => (h2.2.2 j hj).trans (h1.2.2 j hj)⟩
  rcases h2.2.1 with h | h
  · exact Or.inl (h.trans h1.2.1)
  · rw [h1.2.1] at h
    exact Or.inr h

theorem setStatus_frameAt (st : SchedState) (i : Nat) (x : task_status_t) :
    FrameAt i st (setStatus st i x) := by
  rcases setStatus_cases st i x with h | ⟨t, _, h⟩ <;> rw [h]
  · exact frameAt_refl i st
  · exact ⟨by simp, rfl, fun j hj => List.getElem?_set_ne (fun hh => hj hh.symm)⟩

theorem invoke_frameAt (eff : Nat → task_status_t → task_status_t)
    (st : SchedState) (i : Nat) : FrameAt i st (invokeCallback eff st i).1 := by
  rcases invoke_cases eff st i with h | ⟨t, _, _, h⟩ | ⟨t, f, _, _, h⟩ <;> rw [h]
  · exact frameAt_refl i st
  · exact frameAt_refl i st
  · exact ⟨by simp, rfl, fun j hj => List.getElem?_set_ne (fun hh => hj hh.symm)⟩

theorem invoke_events (eff : Nat → task_status_t → task_status_t)
    (st : SchedState) (i : Nat) :
    ∀ e ∈ (invokeCallback eff st i).2, e.1 = i := by
  rcases invoke_cases eff st i with h | ⟨t, _, _, h⟩ | ⟨t, f, _, _, h⟩ <;> rw [h] <;> simp

theorem stopIfRunning_frameAt (st : SchedState) (i : Nat) :
    FrameAt i st (stopIfRunning st i) := by
  unfold stopIfRunning
  by_cases h : statusAt st i = some RUNNING
  · rw [if_pos h]
    exact setStatus_frameAt st i STOPPED
  · rw [if_neg h]
    exact frameAt_refl i st

theorem delete_counter_cases (st : SchedState) (i : Nat) :
    (scheduler_delete_task st i).1.tasks_counter = st.tasks_counter ∨
      (scheduler_delete_task st i).1.tasks_counter = u32pred st.tasks_counter := by
  rcases delete_cases st i with h | ⟨t, _, _, h⟩
  · exact Or.inl (by rw [h])
  · exact Or.inr (by rw [h])

theorem delete_dispSkel (st : SchedState) (i : Nat) :
    DispSkel i st (scheduler_delete_task st i).1 :=
  ⟨delete_length st i, delete_counter_cases st i, fun j hj => delete_frame st i j hj⟩

theorem removeIfOneShot_dispSkel (st : SchedState) (i : Nat) :
    DispSkel i st (removeIfOneShot st i) := by
  unfold removeIfOneShot
  by_cases h : periodAt st i = some 0
  · rw [if_pos h]
    exact delete_dispSkel st i
  · rw [if_neg h]
    exact frameAt_dispSkel (frameAt_refl i st)

theorem ready_dispSkel (eff : Nat → task_status_t → task_status_t)
    (st : SchedState) (i : Nat) : DispSkel i st (readyBranch eff st i).1 := by
  unfold readyBranch
  exact frameAt_trans_dispSkel
    (frameAt_trans (setStatus_frameAt st i RUNNING)
      (invoke_frameAt eff (setStatus st i RUNNING) i))
    (frameAt_trans_dispSkel
      (stopIfRunning_frameAt (invokeCallback eff (setStatus st i RUNNING) i).1 i)
      (removeIfOneShot_dispSkel
        (stopIfRunning (invokeCallback eff (setStatus st i RUNNING) i).1 i) i))

theorem ready_events (eff : Nat → task_status_t → task_status_t)
    (st : SchedState) (i : Nat) :
    ∀ e ∈ (readyBranch eff st i).2, e.1 = i := by
  unfold readyBranch
  exact invoke_events eff (setStatus st i RUNNING) i

set_option maxHeartbeats 1000000 in
theorem body_dispSkel (eff : Nat → task_status_t → task_status_t)
    (st : SchedState) (i : Nat) : DispSkel i st (dispatchBody eff st i).1 := by
  unfold dispatchBody
  by_cases hA : statusAt st i = some RUN_ALWAYS
  · rw [if_pos hA]
    by_cases hR : statusAt (invokeCallback eff st i).1 i = some READY
    · rw [if_pos hR]
      exact frameAt_trans_dispSkel (invoke_frameAt eff st i)
        (ready_dispSkel eff (invokeCallback eff st i).1 i)
    · rw [if_neg hR]
      exact frameAt_dispSkel (invoke_frameAt eff st i)
  · rw [if_neg hA]
    by_cases hR : statusAt st i = some READY
    · rw [if_pos hR]
      exact ready_dispSkel eff st i
    · rw [if_neg hR]
      exact frameAt_dispSkel (frameAt_refl i st)

set_option maxHeartbeats 1000000 in
theorem body_events (eff : Nat → task_status_t → task_status_t)
    (st : SchedState) (i : Nat) :
    ∀ e ∈ (dispatchBody eff st i).2, e.1 = i := by
  unfold dispatchBody
  by_cases hA : statusAt st i = some RUN_ALWAYS
  · rw [if_pos hA]
    by_cases hR : statusAt (invokeCallback eff st i).1 i = some READY
    · rw [if_pos hR]
      intro e he
      rcases List.mem_append.1 he with he | he
      · exact invoke_events eff st i e he
      · exact ready_events eff (invokeCallback eff st i).1 i e he
    · rw [if_neg hR]
      exact invoke_events eff st i
  · rw [if_neg hA]
    by_cases hR : statusAt st i = some READY
    · rw [if_pos hR]
      exact ready_events eff st i
    · rw [if_neg hR]
      simp

theorem loop_stop (eff : Nat → task_status_t → task_status_t) (st : SchedState)
    (index : Nat) (h : ¬ index < st.tasks_counter) :
    ∀ fuel, dispatchLoop eff st index fuel = (st, []) := by
  intro fuel
  cases fuel with
  | zero => rfl
  | succ fuel => simp [dispatchLoop, h]

theorem loop_split (eff : Nat → task_status_t → task_status_t) (m : Nat) :
    ∀ (n : Nat) (st : SchedState) (k : Nat),
      dispatchLoop eff st k (m + n) =
        ((dispatchLoop eff (dispatchLoop eff st k m).1 (k + m) n).1,
          (dispatchLoop eff st k m).2 ++
            (dispatchLoop eff (dispatchLoop eff st k m).1 (k + m) n).2) := by
  induction m with
  | zero =>
    intro n st k
    simp [dispatchLoop]
  | succ m ih =>
    intro n st k
    by_cases hk : k < st.tasks_counter
    · rw [show m + 1 + n = (m + n) + 1 by omega]
      simp only [dispatchLoop, hk, if_true]
      rw [ih n (dispatchBody eff st k).1 (k + 1)]
      rw [show k + 1 + m = k + (m + 1) by omega]
      simp [List.append_assoc]
    · rw [loop_stop eff st k hk, loop_stop eff st k hk]
      simp
      rw [loop_stop eff st (k + (m + 1)) (by omega) n]

theorem loop_len (eff : Nat → task_status_t → task_status_t) :
    ∀ (fuel : Nat) (st : SchedState) (k : Nat),
      (dispatchLoop eff st k fuel).1.task_array.length = st.task_array.length := by
  intro fuel
  induction fuel with
  | zero => intro st k; rfl
  | succ fuel ih =>
    intro st k
    by_cases hk : k < st.tasks_counter
    · simp only [dispatchLoop, hk, if_true]
      rw [ih]
      exact (body_dispSkel eff st k).1
    · rw [loop_stop eff st k hk]

theorem loop_counter (eff : Nat → task_status_t → task_status_t) :
    ∀ (fuel : Nat) (st : SchedState) (k : Nat),
      st.tasks_counter < 4294967296 →
        (dispatchLoop eff st k fuel).1.tasks_counter ≤ st.tasks_counter ∧
          (dispatchLoop eff st k fuel).1.tasks_counter < 4294967296 := by
  intro fuel
  induction fuel with
  | zero => intro st k hw; exact ⟨le_rfl, hw⟩
  | succ fuel ih =>
    intro st k hw
    by_cases hk : k < st.tasks_counter
    · simp only [dispatchLoop, hk, if_true]
      rcases (body_dispSkel eff st k).2.1 with hc | hc
    
      · have := ih (dispatchBody eff st k).1 (k + 1) (by rw [hc]; exact hw)
        rw [hc] at this
        exact this
      · have h0 : 0 < st.tasks_counter := by omega
        have hpred : u32pred st.tasks_counter = st.tasks_counter - 1 := u32pred_eq h0 hw
        have := ih (dispatchBody eff st k).1 (k + 1) (by rw [hc, hpred]; omega)
        rw [hc, hpred] at this
        exact ⟨this.1.trans (by omega), this.2⟩
    · rw [loop_stop eff st k hk]
      exact ⟨le_rfl, hw⟩

theorem loop_frame (eff : Nat → task_status_t → task_status_t) :
    ∀ (fuel : Nat) (st : SchedState) (k j : Nat),
      (j < k ∨ k + fuel ≤ j) →
        (dispatchLoop eff st k fuel).1.task_array[j]? = st.task_array[j]? := by
  intro fuel
  induction fuel with
  | zero => intro st k j _; rfl
  | succ fuel ih =>
    intro st k j hj
    by_cases hk : k < st.tasks_counter
    · simp only [dispatchLoop, hk, if_true]
      rw [ih (dispatchBody eff st k).1 (k + 1) j (by omega)]
      exact (body_dispSkel eff st k).2.2 j (by omega)
    · rw [loop_stop eff st k hk]

theorem loop_events_range (eff : Nat → task_status_t → task_status_t) :
    ∀ (fuel : Nat) (st : SchedState) (k : Nat),
      ∀ e ∈ (dispatchLoop eff st k fuel).2, k ≤ e.1 ∧ e.1 < k + fuel := by
  intro fuel
  induction fuel with
  | zero => intro st k e he; simp [dispatchLoop] at he
  | succ fuel ih =>
    intro st k e he
    by_cases hk : k < st.tasks_counter
    · simp only [dispatchLoop, hk, if_true] at he
      rcases List.mem_append.1 he with he | he
      · have := body_events eff st k e he
        omega
      · have := ih (dispatchBody eff st k).1 (k + 1) e he
        omega
    · rw [loop_stop eff st k hk] at he
      simp at he

theorem statusAt_some (st : SchedState) (i : Nat) (t : task_t)
    (hslot : st.task_array[i]? = some t) : statusAt st i = some t.status := by
  simp [statusAt, hslot]

theorem periodAt_some (st : SchedState) (i : Nat) (t : task_t)
    (hslot : st.task_array[i]? = some t) : periodAt st i = some t.period := by
  simp [periodAt, hslot]

theorem ready_compute (eff : Nat → task_status_t → task_status_t)
    (st : SchedState) (i : Nat) (t : task_t) (f : Nat)
    (hslot : st.task_array[i]? = some t) (hf : t.ptask = some f) :
    readyBranch eff st i =
      (if t.period = 0 then
        { st with task_array := st.task_array.set i (clearedTask t),
                  tasks_counter := u32pred st.tasks_counter }
       else
        { st with task_array := st.task_array.set i ({ t with status := postStatus eff f }) },
       [(i, some f, RUNNING)]) := by
  have hlen : i < st.task_array.length := (List.getElem?_eq_some.1 hslot).1
  have hsetA : setStatus st i RUNNING =
      { st with task_array := st.task_array.set i ({ t with status := RUNNING }) } :=
    setStatus_eq st i RUNNING t hslot
  have hslotA : (setStatus st i RUNNING).task_array[i]? = some { t with status := RUNNING } := by
    rw [hsetA]
    exact List.getElem?_set_self (by simpa using hlen)
  have hinv : invokeCallback eff (setStatus st i RUNNING) i =
      ({ st with task_array := st.task_array.set i ({ t with status := eff f RUNNING }) },
       [(i, some f, RUNNING)]) := by
    rw [invoke_some_cb eff (setStatus st i RUNNING) i { t with status := RUNNING } f hslotA hf]
    rw [hsetA]
    simp [List.set_set]
  have hslotB :
      ({ st with task_array := st.task_array.set i ({ t with status := eff f RUNNING }) }).task_array[i]? =
        some { t with status := eff f RUNNING } := by
    exact List.getElem?_set_self (by simpa using hlen)
  have hstop :
      stopIfRunning { st with task_array := st.task_array.set i ({ t with status := eff f RUNNING }) } i =
        { st with task_array := st.task_array.set i ({ t with status := postStatus eff f }) } := by
    unfold stopIfRunning
    rw [statusAt_some _ i _ hslotB]
    by_cases hr : eff f RUNNING = RUNNING
    · rw [if_pos (by simp [hr])]
      rw [setStatus_eq _ i STOPPED _ hslotB]
      simp [List.set_set, postStatus, hr]
    · rw [if_neg (by simp [hr])]
      simp [postStatus, hr]
  have hslotC :
      ({ st with task_array := st.task_array.set i ({ t with status := postStatus eff f }) }).task_array[i]? =
        some { t with status := postStatus eff f } := by
    exact List.getElem?_set_self (by simpa using hlen)
  have hrem :
      removeIfOneShot { st with task_array := st.task_array.set i ({ t with status := postStatus eff f }) } i =
        (if t.period = 0 then
          { st with task_array := st.task_array.set i (clearedTask t),
                    tasks_counter := u32pred st.tasks_counter }
         else
          { st with task_array := st.task_array.set i ({ t with status := postStatus eff f }) }) := by
    unfold removeIfOneShot
    rw [periodAt_some _ i _ hslotC]
    by_cases hp : t.period = 0
    · rw [if_pos (by simp [hp]), if_pos hp]
      rw [cleared_slot_delete _ i _ hslotC (by simp [hf])]
      simp [List.set_set, clearedTask]
    · rw [if_neg (by simp [hp]), if_neg hp]
  unfold readyBranch
  rw [hinv]
  rw [hstop, hrem]

theorem body_ready (eff : Nat → task_status_t → task_status_t)
    (st : SchedState) (i : Nat) (t : task_t)
    (hslot : st.task_array[i]? = some t) (hst : t.status = READY) :
    dispatchBody eff st i = readyBranch eff st i := by
  have hS : statusAt st i = some READY := by rw [statusAt_some st i t hslot, hst]
  unfold dispatchBody
  rw [if_neg (by rw [hS]; decide), if_pos hS]

theorem body_runalways (eff : Nat → task_status_t → task_status_t)
    (st : SchedState) (i : Nat) (t : task_t) (f : Nat)
    (hslot : st.task_array[i]? = some t) (hst : t.status = RUN_ALWAYS)
    (hf : t.ptask = some f) (heff : eff f RUN_ALWAYS = RUN_ALWAYS) :
    dispatchBody eff st i = (st, [(i, some f, RUN_ALWAYS)]) := by
  have hS : statusAt st i = some RUN_ALWAYS := by rw [statusAt_some st i t hslot, hst]
  have hteq : { t with status := RUN_ALWAYS } = t := by rw [← hst]
  have hinv : invokeCallback eff st i = (st, [(i, some f, RUN_ALWAYS)]) := by
    rw [invoke_some_cb eff st i t f hslot hf, hst, heff, hteq, list_set_self hslot]
  unfold dispatchBody
  rw [if_pos hS, hinv]
  rw [if_neg (by rw [hS]; decide)]

theorem body_other (eff : Nat → task_status_t → task_status_t)
    (st : SchedState) (i : Nat)
    (h1 : statusAt st i ≠ some RUN_ALWAYS) (h2 : statusAt st i ≠ some READY) :
    dispatchBody eff st i = (st, []) := by
  unfold dispatchBody
  rw [if_neg h1, if_neg h2]

theorem dispatch_split_at (eff : Nat → task_status_t → task_status_t)
    (st : SchedState) (i : Nat)
    (hw : st.tasks_counter < 4294967296)
    (hreach : i < (dispatchLoop eff st 0 i).1.tasks_counter) :
    scheduler_dispatch_task eff st =
      ((dispatchLoop eff (dispatchBody eff (dispatchLoop eff st 0 i).1 i).1 (i + 1)
          (st.tasks_counter - i - 1)).1,
        (dispatchLoop eff st 0 i).2 ++
          ((dispatchBody eff (dispatchLoop eff st 0 i).1 i).2 ++
            (dispatchLoop eff (dispatchBody eff (dispatchLoop eff st 0 i).1 i).1 (i + 1)
              (st.tasks_counter - i - 1)).2)) := by
  have hic : i < st.tasks_counter := lt_of_lt_of_le hreach (loop_counter eff i st 0 hw).1
  unfold scheduler_dispatch_task
  conv_lhs => rw [show st.tasks_counter = i + ((st.tasks_counter - i - 1) + 1) from by omega]
  rw [loop_split eff i ((st.tasks_counter - i - 1) + 1) st 0]
  simp only [Nat.zero_add]
  simp only [dispatchLoop, hreach, if_true]

/-- Claim C1: for every table state and every slot, one call to tick
(scheduler_update) behaves as follows: if the slot is active (non-null
callback) and its delay is 0, the status becomes READY unless the current
status is RUN_ALWAYS or SUSPENDED (in which case it is unchanged), and the
delay is reset to period when period > 0 while staying 0 when period = 0
(callback, period, name and handle unchanged); if the slot is active with a
nonzero delay, the tick decrements the delay by exactly one and changes
nothing else; an inactive slot is left untouched. -/
theorem C1_tick_slot_transition (st : SchedState) (i : Nat) (t : task_t)
    (hslot : st.task_array[i]? = some t) :
    ∃ t2, (scheduler_update st).1.task_array[i]? = some t2 ∧
      (t.ptask = none → t2 = t) ∧
      (t.ptask ≠ none → t.delay = 0 →
        ((t.status ≠ RUN_ALWAYS ∧ t.status ≠ SUSPENDED) → t2.status = READY) ∧
        ((t.status = RUN_ALWAYS ∨ t.status = SUSPENDED) → t2.status = t.status) ∧
        (0 < t.period → t2.delay = t.period) ∧
        (t.period = 0 → t2.delay = 0) ∧
        t2.ptask = t.ptask ∧ t2.period = t.period ∧ t2.task_name = t.task_name ∧
        t2.task_handler = t.task_handler) ∧
      (t.ptask ≠ none → t.delay ≠ 0 → t2 = { t with delay := t.delay - 1 }) := by
  refine ⟨tickTask t, by rw [update_slot, hslot]; rfl, ?_, ?_, ?_⟩
  · intro ha
    unfold tickTask
    simp [ha]
  · intro ha hd
    obtain ⟨f1, f2, f3, f4, f5⟩ := readyTransition_fields t
    have htt : tickTask t =
        (if 0 < t.period then { readyTransition t with delay := t.period }
         else readyTransition t) := by
      unfold tickTask
      simp [ha, hd]
    by_cases hp : 0 < t.period
    · rw [htt, if_pos hp]
      refine ⟨?_, ?_, ?_, ?_, ?_, ?_, ?_, ?_⟩
      · intro hs
        show (readyTransition t).status = READY
        unfold readyTransition
        rw [if_pos hs]
      · intro hs
        show (readyTransition t).status = t.status
        unfold readyTransition
        rw [if_neg (by tauto)]
      · intro _; rfl
      · intro h0; omega
      · exact f1
      · exact f2
      · exact f3
      · exact f4
    · rw [htt, if_neg hp]
      have hp0 : t.period = 0 := by omega
      refine ⟨?_, ?_, ?_, ?_, f1, f2, f3, f4⟩
      · intro hs
        unfold readyTransition
        rw [if_pos hs]
      · intro hs
        unfold readyTransition
        rw [if_neg (by tauto)]
      · intro h0; omega
      · intro _
        rw [f5, hd]
  · intro ha hd
    unfold tickTask
    simp [ha, hd]

theorem C1_witness :
    (⟨1, 0, [⟨some 3, none, 2, 5, STOPPED, ⟨0, none⟩⟩]⟩ : SchedState).task_array[0]? =
      some ⟨some 3, none, 2, 5, STOPPED, ⟨0, none⟩⟩ ∧
    (∃ t2, (scheduler_update ⟨1, 0, [⟨some 3, none, 2, 5, STOPPED, ⟨0, none⟩⟩]⟩).1.task_array[0]? =
        some t2 ∧
      ((⟨some 3, none, 2, 5, STOPPED, ⟨0, none⟩⟩ : task_t).ptask = none →
        t2 = ⟨some 3, none, 2, 5, STOPPED, ⟨0, none⟩⟩) ∧
      ((⟨some 3, none, 2, 5, STOPPED, ⟨0, none⟩⟩ : task_t).ptask ≠ none →
        (⟨some 3, none, 2, 5, STOPPED, ⟨0, none⟩⟩ : task_t).delay = 0 →
        (((⟨some 3, none, 2, 5, STOPPED, ⟨0, none⟩⟩ : task_t).status ≠ RUN_ALWAYS ∧
            (⟨some 3, none, 2, 5, STOPPED, ⟨0, none⟩⟩ : task_t).status ≠ SUSPENDED) →
          t2.status = READY) ∧
        (((⟨some 3, none, 2, 5, STOPPED, ⟨0, none⟩⟩ : task_t).status = RUN_ALWAYS ∨
            (⟨some 3, none, 2, 5, STOPPED, ⟨0, none⟩⟩ : task_t).status = SUSPENDED) →
          t2.status = (⟨some 3, none, 2, 5, STOPPED, ⟨0, none⟩⟩ : task_t).status) ∧
        (0 < (⟨some 3, none, 2, 5, STOPPED, ⟨0, none⟩⟩ : task_t).period →
          t2.delay = (⟨some 3, none, 2, 5, STOPPED, ⟨0, none⟩⟩ : task_t).period) ∧
        ((⟨some 3, none, 2, 5, STOPPED, ⟨0, none⟩⟩ : task_t).period = 0 → t2.delay = 0) ∧
        t2.ptask = (⟨some 3, none, 2, 5, STOPPED, ⟨0, none⟩⟩ : task_t).ptask ∧
        t2.period = (⟨some 3, none, 2, 5, STOPPED, ⟨0, none⟩⟩ : task_t).period ∧
        t2.task_name = (⟨some 3, none, 2, 5, STOPPED, ⟨0, none⟩⟩ : task_t).task_name ∧
        t2.task_handler = (⟨some 3, none, 2, 5, STOPPED, ⟨0, none⟩⟩ : task_t).task_handler) ∧
      ((⟨some 3, none, 2, 5, STOPPED, ⟨0, none⟩⟩ : task_t).ptask ≠ none →
        (⟨some 3, none, 2, 5, STOPPED, ⟨0, none⟩⟩ : task_t).delay ≠ 0 →
        t2 = { (⟨some 3, none, 2, 5, STOPPED, ⟨0, none⟩⟩ : task_t) with delay :=
          (⟨some 3, none, 2, 5, STOPPED, ⟨0, none⟩⟩ : task_t).delay - 1 })) :=
  ⟨rfl, C1_tick_slot_transition ⟨1, 0, [⟨some 3, none, 2, 5, STOPPED, ⟨0, none⟩⟩]⟩ 0
    ⟨some 3, none, 2, 5, STOPPED, ⟨0, none⟩⟩ rfl⟩

/-- Claim C2: for every table state and every slot with status READY that
the dispatch scan reaches (the loop has not terminated before its index),
dispatch invokes the slot's callback exactly once during the pass, with the
slot's status set to RUNNING immediately before the invocation (the single
recorded event carries status RUNNING); after the pass, if the slot's period
is 0 the task has been removed from the table (the slot holds the cleared
record), and otherwise the slot's status is back to STOPPED if the callback
left it at RUNNING, or whatever status the callback wrote. -/
theorem C2_dispatch_ready_slot (eff : Nat → task_status_t → task_status_t)
    (st : SchedState) (i : Nat) (t : task_t) (f : Nat)
    (hw : st.tasks_counter < 4294967296)
    (hslot : st.task_array[i]? = some t)
    (hst : t.status = READY)
    (hf : t.ptask = some f)
    (hreach : i < (dispatchLoop eff st 0 i).1.tasks_counter) :
    (scheduler_dispatch_task eff st).2.filter (fun e => e.1 == i) =
      [(i, some f, RUNNING)] ∧
    (t.period = 0 →
      (scheduler_dispatch_task eff st).1.task_array[i]? = some (clearedTask t)) ∧
    (t.period ≠ 0 →
      (scheduler_dispatch_task eff st).1.task_array[i]? =
        some { t with status := postStatus eff f }) := by
  have hsplit := dispatch_split_at eff st i hw hreach
  have hslotPre : (dispatchLoop eff st 0 i).1.task_array[i]? = some t := by
    rw [loop_frame eff i st 0 i (Or.inr (by omega))]
    exact hslot
  have hlenPre : i < (dispatchLoop eff st 0 i).1.task_array.length := by
    rw [loop_len eff i st 0]
    exact (List.getElem?_eq_some.1 hslot).1
  have hbody : dispatchBody eff (dispatchLoop eff st 0 i).1 i =
      (if t.period = 0 then
        { (dispatchLoop eff st 0 i).1 with
            task_array := (dispatchLoop eff st 0 i).1.task_array.set i (clearedTask t),
            tasks_counter := u32pred (dispatchLoop eff st 0 i).1.tasks_counter }
       else
        { (dispatchLoop eff st 0 i).1 with
            task_array := (dispatchLoop eff st 0 i).1.task_array.set i
              ({ t with status := postStatus eff f }) },
       [(i, some f, RUNNING)]) := by
    rw [body_ready eff _ i t hslotPre hst]
    exact ready_compute eff _ i t f hslotPre hf
  have hslotFinal : (scheduler_dispatch_task eff st).1.task_array[i]? =
      (dispatchBody eff (dispatchLoop eff st 0 i).1 i).1.task_array[i]? := by
    rw [hsplit]
    exact loop_frame eff (st.tasks_counter - i - 1) _ (i + 1) i (Or.inl (by omega))
  refine ⟨?_, ?_, ?_⟩
  · rw [hsplit]
    simp only [List.filter_append]
    have hpre : (dispatchLoop eff st 0 i).2.filter (fun e => e.1 == i) = [] := by
      refine List.filter_eq_nil_iff.2 (fun e he => ?_)
      have := loop_events_range eff i st 0 e he
      simp only [beq_iff_eq]
      omega
    have hpost : (dispatchLoop eff (dispatchBody eff (dispatchLoop eff st 0 i).1 i).1
        (i + 1) (st.tasks_counter - i - 1)).2.filter (fun e => e.1 == i) = [] := by
      refine List.filter_eq_nil_iff.2 (fun e he => ?_)
      have := loop_events_range eff (st.tasks_counter - i - 1) _ (i + 1) e he
      simp only [beq_iff_eq]
      omega
    rw [hpre, hpost, hbody]
    simp
  · intro hp
    rw [hslotFinal, hbody, if_pos hp]
    exact List.getElem?_set_self (by simpa using hlenPre)
  · intro hp
    rw [hslotFinal, hbody, if_neg hp]
    exact List.getElem?_set_self (by simpa using hlenPre)

theorem C2_witness :
    (1 : Nat) < 4294967296 ∧
    (⟨1, 0, [⟨some 5, none, 0, 2, READY, ⟨0, none⟩⟩]⟩ : SchedState).task_array[0]? =
      some ⟨some 5, none, 0, 2, READY, ⟨0, none⟩⟩ ∧
    0 < (dispatchLoop idEff ⟨1, 0, [⟨some 5, none, 0, 2, READY, ⟨0, none⟩⟩]⟩ 0 0).1.tasks_counter ∧
    (scheduler_dispatch_task idEff
        ⟨1, 0, [⟨some 5, none, 0, 2, READY, ⟨0, none⟩⟩]⟩).2.filter (fun e => e.1 == 0) =
      [(0, some 5, RUNNING)] ∧
    (scheduler_dispatch_task idEff
        ⟨1, 0, [⟨some 5, none, 0, 2, READY, ⟨0, none⟩⟩]⟩).1.task_array[0]? =
      some ⟨some 5, none, 0, 2, postStatus idEff 5, ⟨0, none⟩⟩ := by
  have h := C2_dispatch_ready_slot idEff ⟨1, 0, [⟨some 5, none, 0, 2, READY, ⟨0, none⟩⟩]⟩ 0
    ⟨some 5, none, 0, 2, READY, ⟨0, none⟩⟩ 5 (by decide) rfl rfl rfl (by decide)
  exact ⟨by decide, rfl, by decide, h.1, h.2.2 (by decide)⟩

theorem tickN_zero (s : SchedState) : tickN 0 s = s := rfl

theorem tickN_succ (k : Nat) (s : SchedState) :
    tickN (k + 1) s = (scheduler_update (tickN k s)).1 :=
  Function.iterate_succ_apply' (fun s => (scheduler_update s).1) k s

/-- Claim C3 (corrected): registering a task with delay 2 and period 5 into
a fresh scheduler and then calling tick exactly twice (the registered delay)
leaves the task STOPPED, not READY: the d-th tick only brings the delay to
0, and the transition to READY happens on the following tick. -/
theorem C3_counterexample :
    (scheduler_add_task (scheduler_init (pristineState 1)).1 (some 7) none none 2 5).2 =
      SCH_STATUS_OK ∧
    statusAt (tickN 2 (scheduler_add_task (scheduler_init (pristineState 1)).1
        (some 7) none none 2 5).1) 0 = some STOPPED ∧
    ¬ statusAt (tickN 2 (scheduler_add_task (scheduler_init (pristineState 1)).1
        (some 7) none none 2 5).1) 0 = some READY := by
  decide

/-- Claim C3 (amended): for a task registered with delay d > 0 and period
p > 0 (no interleaved dispatch or remove), after k ≤ d ticks the task is
still STOPPED with delay d - k — in particular the d-th tick leaves it
STOPPED with delay 0 — and the (d+1)-th tick transitions it to READY and
simultaneously resets the delay to p. -/
theorem C3_amended_tick_countdown (st : SchedState) (c : Nat) (nm : Option String)
    (pm : Option Nat) (d p : Nat)
    (hret : (scheduler_add_task st (some c) nm pm d p).2 = SCH_STATUS_OK)
    (hd : 0 < d) (hp : 0 < p) :
    (∀ k, k ≤ d →
      (tickN k (scheduler_add_task st (some c) nm pm d p).1).task_array[st.tasks_counter]? =
        some ⟨some c, nm, d - k, p, STOPPED, ⟨st.tasks_counter, pm⟩⟩) ∧
    (tickN (d + 1) (scheduler_add_task st (some c) nm pm d p).1).task_array[st.tasks_counter]? =
      some ⟨some c, nm, p, p, READY, ⟨st.tasks_counter, pm⟩⟩ := by
  obtain ⟨h1, h2⟩ := add_ret_ok st (some c) nm pm d p hret
  have hadd := add_success st (some c) nm pm d p h1 h2
  have hnew : newTask (some c) nm pm d p st.tasks_counter =
      ⟨some c, nm, d, p, STOPPED, ⟨st.tasks_counter, pm⟩⟩ := by
    simp [newTask, show ¬ p = 0 by omega]
  have hslot1 : (scheduler_add_task st (some c) nm pm d p).1.task_array[st.tasks_counter]? =
      some ⟨some c, nm, d, p, STOPPED, ⟨st.tasks_counter, pm⟩⟩ := by
    rw [hadd, ← hnew]
    exact List.getElem?_set_self (by simpa using h1)
  have main : ∀ k, k ≤ d →
      (tickN k (scheduler_add_task st (some c) nm pm d p).1).task_array[st.tasks_counter]? =
        some ⟨some c, nm, d - k, p, STOPPED, ⟨st.tasks_counter, pm⟩⟩ := by
    intro k
    induction k with
    | zero => intro _; simpa [tickN] using hslot1
    | succ k ih =>
      intro hk
      have hprev := ih (by omega)
      rw [tickN_succ, update_slot, hprev]
      have hne : ¬ d - k = 0 := by omega
      have harith : d - k - 1 = d - (k + 1) := by omega
      simp [tickTask, hne, harith]
  refine ⟨main, ?_⟩
  have hlast := main d le_rfl
  rw [tickN_succ, update_slot, hlast]
  simp [tickTask, readyTransition, hp]

theorem C3_witness :
    (scheduler_add_task (scheduler_init (pristineState 1)).1 (some 7) none none 2 5).2 =
      SCH_STATUS_OK ∧
    (0 : Nat) < 2 ∧ (0 : Nat) < 5 ∧
    (tickN 2 (scheduler_add_task (scheduler_init (pristineState 1)).1
        (some 7) none none 2 5).1).task_array[0]? =
      some ⟨some 7, none, 0, 5, STOPPED, ⟨0, none⟩⟩ ∧
    (tickN 3 (scheduler_add_task (scheduler_init (pristineState 1)).1
        (some 7) none none 2 5).1).task_array[0]? =
      some ⟨some 7, none, 5, 5, READY, ⟨0, none⟩⟩ := by
  have h := C3_amended_tick_countdown (scheduler_init (pristineState 1)).1 7 none none 2 5
    (by decide) (by decide) (by decide)
  exact ⟨by decide, by decide, by decide, h.1 2 (by decide), h.2⟩

/-- Claim C7: a register call whose callback reference is already held by an
active slot returns SCH_ERROR and leaves the task counter and the whole task
array unchanged (only the bit-packed diagnostic flag register is written on
this failure path). -/
theorem C7_duplicate_rejected (st : SchedState) (cb : Option Nat) (nm : Option String)
    (pm : Option Nat) (d p : Nat) (i : Nat) (t : task_t)
    (hslot : st.task_array[i]? = some t) (hact : t.ptask ≠ none) (heq : t.ptask = cb) :
    (scheduler_add_task st cb nm pm d p).2 = SCH_ERROR ∧
    (scheduler_add_task st cb nm pm d p).1.tasks_counter = st.tasks_counter ∧
    (scheduler_add_task st cb nm pm d p).1.task_array = st.task_array := by
  by_cases h1 : st.tasks_counter < st.task_array.length
  · have hany : st.task_array.any (fun u => u.ptask == cb) = true := by
      refine List.any_eq_true.2 ⟨t, List.getElem?_mem hslot, ?_⟩
      simp [heq]
    rw [add_dup st cb nm pm d p h1 hany]
    exact ⟨rfl, rfl, rfl⟩
  · rw [add_full st cb nm pm d p h1]
    exact ⟨rfl, rfl, rfl⟩

theorem C7_witness :
    (⟨1, 0, [⟨some 4, none, 0, 1, STOPPED, ⟨0, none⟩⟩]⟩ : SchedState).task_array[0]? =
      some ⟨some 4, none, 0, 1, STOPPED, ⟨0, none⟩⟩ ∧
    (⟨some 4, none, 0, 1, STOPPED, ⟨0, none⟩⟩ : task_t).ptask ≠ none ∧
    (scheduler_add_task ⟨1, 0, [⟨some 4, none, 0, 1, STOPPED, ⟨0, none⟩⟩]⟩
        (some 4) none none 3 3).2 = SCH_ERROR ∧
    (scheduler_add_task ⟨1, 0, [⟨some 4, none, 0, 1, STOPPED, ⟨0, none⟩⟩]⟩
        (some 4) none none 3 3).1.tasks_counter = 1 ∧
    (scheduler_add_task ⟨1, 0, [⟨some 4, none, 0, 1, STOPPED, ⟨0, none⟩⟩]⟩
        (some 4) none none 3 3).1.task_array =
      [⟨some 4, none, 0, 1, STOPPED, ⟨0, none⟩⟩] := by
  have h := C7_duplicate_rejected ⟨1, 0, [⟨some 4, none, 0, 1, STOPPED, ⟨0, none⟩⟩]⟩
    (some 4) none none 3 3 0 ⟨some 4, none, 0, 1, STOPPED, ⟨0, none⟩⟩ rfl (by decide) rfl
  exact ⟨rfl, by decide, h.1, h.2.1, h.2.2⟩

/-- Claim C8 (corrected): a periodic task may be registered with an initial
delay larger than its period — register(delay 5, period 2) succeeds on a
fresh scheduler and leaves the slot with delay 5 > period 2 — so the delay
does not lie in the interval from 0 to period from the moment of
registration on. -/
theorem C8_counterexample :
    (scheduler_add_task (scheduler_init (pristineState 1)).1 (some 7) none none 5 2).2 =
      SCH_STATUS_OK ∧
    ((scheduler_add_task (scheduler_init (pristineState 1)).1
        (some 7) none none 5 2).1.task_array[0]?).map task_t.delay = some 5 ∧
    ((scheduler_add_task (scheduler_init (pristineState 1)).1
        (some 7) none none 5 2).1.task_array[0]?).map task_t.period = some 2 ∧
    ¬ (5 : Nat) ≤ 2 := by
  decide

/-- Claim C8 (amended): provided the registered initial delay is at most the
period, a periodic task's delay stays in the interval from 0 to period: a
successful registration with d less than or equal to p > 0 establishes delay
d bounded by the period, and every tick on an active periodic slot whose
delay is bounded by its period keeps the bound, re-arming the delay to
exactly the period precisely at the ticks where the delay has reached 0. -/
theorem C8_amended_delay_bounded :
    (∀ (st : SchedState) (c : Nat) (nm : Option String) (pm : Option Nat) (d p : Nat),
      (scheduler_add_task st (some c) nm pm d p).2 = SCH_STATUS_OK → 0 < p → d ≤ p →
      ∃ t, (scheduler_add_task st (some c) nm pm d p).1.task_array[st.tasks_counter]? =
          some t ∧
        t.ptask = some c ∧ t.period = p ∧ t.delay = d ∧ t.delay ≤ p) ∧
    (∀ (st : SchedState) (i : Nat) (t : task_t),
      st.task_array[i]? = some t → t.ptask ≠ none → 0 < t.period → t.delay ≤ t.period →
      ∃ t2, (scheduler_update st).1.task_array[i]? = some t2 ∧
        t2.period = t.period ∧ t2.delay ≤ t.period ∧ (t2.delay = t.period ↔ t.delay = 0)) := by
  constructor
  · intro st c nm pm d p hret hp hdp
    obtain ⟨h1, h2⟩ := add_ret_ok st (some c) nm pm d p hret
    have hadd := add_success st (some c) nm pm d p h1 h2
    refine ⟨newTask (some c) nm pm d p st.tasks_counter, ?_, by simp [newTask],
      by simp [newTask], by simp [newTask], by simp [newTask]; omega⟩
    rw [hadd]
    exact List.getElem?_set_self (by simpa using h1)
  · intro st i t hslot ha hp hdp
    refine ⟨tickTask t, by rw [update_slot, hslot]; rfl, ?_, ?_, ?_⟩
    · exact (tickTask_fields t).2.1
    · by_cases hd : t.delay = 0
      · simp [tickTask, ha, hd, hp]
      · simp [tickTask, ha, hd]
        omega
    · by_cases hd : t.delay = 0
      · simp [tickTask, ha, hd, hp]
      · simp [tickTask, ha, hd]
        omega

theorem C8_witness :
    (∃ t, (scheduler_add_task (scheduler_init (pristineState 1)).1
          (some 7) none none 1 2).1.task_array[0]? = some t ∧
        t.ptask = some 7 ∧ t.period = 2 ∧ t.delay = 1 ∧ t.delay ≤ 2) ∧
    (∃ t2, (scheduler_update
          ⟨1, 0, [⟨some 7, none, 0, 2, STOPPED, ⟨0, none⟩⟩]⟩).1.task_array[0]? = some t2 ∧
        t2.period = 2 ∧ t2.delay ≤ 2 ∧ (t2.delay = 2 ↔ (0 : Nat) = 0)) := by
  have h := C8_amended_delay_bounded
  exact ⟨h.1 (scheduler_init (pristineState 1)).1 7 none none 1 2 (by decide) (by decide)
      (by decide),
    h.2 ⟨1, 0, [⟨some 7, none, 0, 2, STOPPED, ⟨0, none⟩⟩]⟩ 0
      ⟨some 7, none, 0, 2, STOPPED, ⟨0, none⟩⟩ rfl (by decide) (by decide) (by decide)⟩

theorem statusAt_inv (st : SchedState) (i : Nat) (s : task_status_t)
    (h : statusAt st i = some s) :
    ∃ t, st.task_array[i]? = some t ∧ t.status = s := by
  unfold statusAt at h
  cases hslot : st.task_array[i]? with
  | none => rw [hslot] at h; cases h
  | some t =>
    rw [hslot] at h
    exact ⟨t, rfl, by simpa using h⟩

theorem MI_flags (MAX : Nat) (st : SchedState) (x : Nat) (h : MI MAX st) :
    MI MAX { st with scheduler_status := x } := h

theorem MI_active_of_status (MAX : Nat) (st : SchedState) (i : Nat) (t : task_t)
    (hMI : MI MAX st) (hslot : st.task_array[i]? = some t)
    (hs : t.status ≠ STOPPED) : t.ptask ≠ none := by
  intro hnone
  exact hs (hMI.2.2.2 t (List.getElem?_mem hslot) hnone).1

theorem MI_set_preserve (MAX : Nat) (st : SchedState) (i : Nat) (t r : task_t)
    (hMI : MI MAX st) (hslot : st.task_array[i]? = some t)
    (hpt : r.ptask.isSome = t.ptask.isSome)
    (hr : r.ptask = none →
      r.status = STOPPED ∧ r.delay = 0 ∧ r.task_handler = { index := 0, parameter := none }) :
    MI MAX { st with task_array := st.task_array.set i r } := by
  obtain ⟨hlen, hcnt, hac, hinact⟩ := hMI
  obtain ⟨hl, heq⟩ := List.getElem?_eq_some.1 hslot
  refine ⟨by simpa using hlen, hcnt, ?_, ?_⟩
  · show (st.task_array.set i r).countP (fun u => u.ptask.isSome) ≤ st.tasks_counter
    rw [List.countP_set _ _ _ _ hl]
    have hb := List.boole_getElem_le_countP (fun u => u.ptask.isSome) st.task_array i hl
    have hpr : r.ptask.isSome = st.task_array[i].ptask.isSome := by
      rw [heq]
      exact hpt
    rw [hpr]
    unfold activeCount at hac
    omega
  · intro u hu hnone
    rcases List.mem_or_eq_of_mem_set hu with hu | hu
    · exact hinact u hu hnone
    · subst hu
      exact hr hnone

theorem MI_clear (MAX : Nat) (st : SchedState) (i : Nat) (t : task_t)
    (hM : MAX < 4294967296) (hMI : MI MAX st)
    (hslot : st.task_array[i]? = some t) (ha : t.ptask ≠ none) :
    MI MAX { st with task_array := st.task_array.set i (clearedTask t),
                     tasks_counter := u32pred st.tasks_counter } := by
  obtain ⟨hlen, hcnt, hac, hinact⟩ := hMI
  obtain ⟨hl, heq⟩ := List.getElem?_eq_some.1 hslot
  have hone : 0 < activeCount st := by
    unfold activeCount
    refine List.countP_pos_iff.2 ⟨t, List.getElem?_mem hslot, ?_⟩
    exact Option.ne_none_iff_isSome.1 ha
  have hc1 : 0 < st.tasks_counter := lt_of_lt_of_le hone hac
  have hpred : u32pred st.tasks_counter = st.tasks_counter - 1 :=
    u32pred_eq hc1 (lt_of_le_of_lt hcnt hM)
  refine ⟨by simpa using hlen, ?_, ?_, ?_⟩
  · show u32pred st.tasks_counter ≤ MAX
    rw [hpred]
    omega
  · show (st.task_array.set i (clearedTask t)).countP (fun u => u.ptask.isSome) ≤
      u32pred st.tasks_counter
    rw [List.countP_set _ _ _ _ hl, hpred]
    have hct : (clearedTask t).ptask.isSome = false := by
      simp [clearedTask]
    have htt : st.task_array[i].ptask.isSome = true := by
      rw [heq]
      exact Option.ne_none_iff_isSome.1 ha
    rw [hct, htt]
    simp only [show (true = true) = True from by simp, show (false = true) = False from by simp,
      if_true, if_false]
    unfold activeCount at hac hone
    omega
  · intro u hu hnone
    rcases List.mem_or_eq_of_mem_set hu with hu | hu
    · exact hinact u hu hnone
    · subst hu
      exact ⟨rfl, rfl, rfl⟩

theorem MI_delete (MAX : Nat) (st : SchedState) (i : Nat)
    (hM : MAX < 4294967296) (hMI : MI MAX st) :
    MI MAX (scheduler_delete_task st i).1 := by
  rcases delete_cases st i with h | ⟨t, hslot, ha, h⟩ <;> rw [h]
  · exact hMI
  · exact MI_clear MAX st i t hM hMI hslot ha

theorem MI_add (MAX : Nat) (st : SchedState) (cb : Option Nat) (nm : Option String)
    (pm : Option Nat) (d p : Nat) (hM : MAX < 4294967296) (hMI : MI MAX st) :
    MI MAX (scheduler_add_task st cb nm pm d p).1 := by
  obtain ⟨hlen, hcnt, hac, hinact⟩ := hMI
  by_cases h1 : st.tasks_counter < st.task_array.length
  · cases h2 : st.task_array.any (fun u => u.ptask == cb) with
    | true =>
      rw [add_dup st cb nm pm d p h1 h2]
      exact MI_flags MAX st _ ⟨hlen, hcnt, hac, hinact⟩
    | false =>
      have hcb : cb ≠ none := by
        intro hcb
        subst hcb
        have hall : ∀ u ∈ st.task_array, u.ptask.isSome = true := by
          intro u hu
          cases hpu : u.ptask with
          | none =>
            have : st.task_array.any (fun v => v.ptask == none) = true :=
              List.any_eq_true.2 ⟨u, hu, by simp [hpu]⟩
            rw [h2] at this
            cases this
          | some g => rfl
        have : activeCount st = st.task_array.length :=
          List.countP_eq_length.2 hall
        omega
      rw [add_success st cb nm pm d p h1 h2]
      have hsucc : u32succ st.tasks_counter = st.tasks_counter + 1 :=
        u32succ_eq (by omega)
      refine ⟨by simpa using hlen, ?_, ?_, ?_⟩
      · show u32succ st.tasks_counter ≤ MAX
        rw [hsucc]
        omega
      · show (st.task_array.set st.tasks_counter
            (newTask cb nm pm d p st.tasks_counter)).countP (fun u => u.ptask.isSome) ≤
          u32succ st.tasks_counter
        rw [List.countP_set _ _ _ _ h1, hsucc]
        have hb := List.boole_getElem_le_countP (fun u => u.ptask.isSome)
          st.task_array st.tasks_counter h1
        have hnt : (newTask cb nm pm d p st.tasks_counter).ptask.isSome = true := by
          cases hcb2 : cb with
          | none => exact absurd hcb2 hcb
          | some g => simp [newTask, hcb2]
        rw [hnt]
        simp only [show (true = true) = True from by simp, if_true]
        unfold activeCount at hac
        omega
      · intro u hu hnone
        rcases List.mem_or_eq_of_mem_set hu with hu | hu
        · exact hinact u hu hnone
        · subst hu
          exact absurd (by simpa [newTask] using hnone) hcb
  · rw [add_full st cb nm pm d p h1]
    exact MI_flags MAX st _ ⟨hlen, hcnt, hac, hinact⟩

theorem tickTask_inactive (t : task_t) (h : t.ptask = none) : tickTask t = t := by
  unfold tickTask
  simp [h]

theorem MI_tick (MAX : Nat) (st : SchedState) (hMI : MI MAX st) :
    MI MAX (scheduler_update st).1 := by
  obtain ⟨hlen, hcnt, hac, hinact⟩ := hMI
  refine ⟨by simpa [scheduler_update] using hlen, hcnt, ?_, ?_⟩
  · show (st.task_array.map tickTask).countP (fun u => u.ptask.isSome) ≤ st.tasks_counter
    rw [List.countP_map]
    calc st.task_array.countP ((fun u => u.ptask.isSome) ∘ tickTask)
        = st.task_array.countP (fun u => u.ptask.isSome) := by
          refine List.countP_congr (fun u _ => ?_)
          simp [Function.comp, (tickTask_fields u).1]
      _ ≤ st.tasks_counter := hac
  · intro u hu hnone
    simp only [scheduler_update] at hu
    rcases List.mem_map.1 hu with ⟨v, hv, rfl⟩
    have hvp : v.ptask = none := by
      have := (tickTask_fields v).1
      rw [this] at hnone
      exact hnone
    rw [tickTask_inactive v hvp]
    rw [tickTask_inactive v hvp] at hnone
    exact hinact v hv hnone

theorem pair_fst {α β : Type} (a : α) (b : β) : (a, b).1 = a := rfl

theorem pair_snd {α β : Type} (a : α) (b : β) : (a, b).2 = b := rfl

theorem MI_ready (MAX : Nat) (eff : Nat → task_status_t → task_status_t)
    (st : SchedState) (i : Nat) (u : task_t) (f : Nat)
    (hM : MAX < 4294967296) (hMI : MI MAX st)
    (hslot : st.task_array[i]? = some u) (hf : u.ptask = some f) :
    MI MAX (readyBranch eff st i).1 := by
  rw [ready_compute eff st i u f hslot hf]
  show MI MAX (if u.period = 0 then _ else _)
  by_cases hp : u.period = 0
  · rw [if_pos hp]
    exact MI_clear MAX st i u hM hMI hslot (by simp [hf])
  · rw [if_neg hp]
    refine MI_set_preserve MAX st i u _ hMI hslot rfl ?_
    intro h
    simp [hf] at h

theorem MI_body_events (MAX : Nat) (eff : Nat → task_status_t → task_status_t)
    (st : SchedState) (i : Nat) (hM : MAX < 4294967296) (hMI : MI MAX st) :
    MI MAX (dispatchBody eff st i).1 ∧
      ∀ e ∈ (dispatchBody eff st i).2, e.2.1 ≠ none := by
  by_cases hA : statusAt st i = some RUN_ALWAYS
  · obtain ⟨t, hslot, hst⟩ := statusAt_inv st i RUN_ALWAYS hA
    have hact : t.ptask ≠ none :=
      MI_active_of_status MAX st i t hMI hslot (by rw [hst]; decide)
    obtain ⟨f, hf⟩ := Option.ne_none_iff_exists'.1 hact
    have hlen : i < st.task_array.length := (List.getElem?_eq_some.1 hslot).1
    have hinv : invokeCallback eff st i =
        ({ st with task_array := st.task_array.set i ({ t with status := eff f RUN_ALWAYS }) },
         [(i, some f, RUN_ALWAYS)]) := by
      rw [invoke_some_cb eff st i t f hslot hf, hst]
    have hMIA : MI MAX
        { st with task_array := st.task_array.set i ({ t with status := eff f RUN_ALWAYS }) } := by
      refine MI_set_preserve MAX st i t _ hMI hslot rfl ?_
      intro h
      simp [hf] at h
    have hslotA :
        ({ st with task_array := st.task_array.set i ({ t with status := eff f RUN_ALWAYS }) }).task_array[i]? =
          some { t with status := eff f RUN_ALWAYS } :=
      List.getElem?_set_self (by simpa using hlen)
    unfold dispatchBody
    rw [if_pos hA, hinv]
    simp only [pair_fst, pair_snd]
    by_cases hR : statusAt
        { st with task_array := st.task_array.set i ({ t with status := eff f RUN_ALWAYS }) } i =
        some READY
    · rw [if_pos hR]
      have hev : (readyBranch eff
          { st with task_array := st.task_array.set i ({ t with status := eff f RUN_ALWAYS }) } i).2 =
          [(i, some f, RUNNING)] := by
        rw [ready_compute eff _ i { t with status := eff f RUN_ALWAYS } f hslotA (by simpa using hf)]
      constructor
      · exact MI_ready MAX eff _ i { t with status := eff f RUN_ALWAYS } f hM hMIA hslotA
          (by simpa using hf)
      · intro e he
        rcases List.mem_append.1 he with he | he
        · rw [List.mem_singleton] at he
          subst he
          simp
        · rw [hev, List.mem_singleton] at he
          subst he
          simp
    · rw [if_neg hR]
      refine ⟨hMIA, ?_⟩
      intro e he
      rw [List.mem_singleton] at he
      subst he
      simp
  · by_cases hR : statusAt st i = some READY
    · obtain ⟨t, hslot, hst⟩ := statusAt_inv st i READY hR
      have hact : t.ptask ≠ none :=
        MI_active_of_status MAX st i t hMI hslot (by rw [hst]; decide)
      obtain ⟨f, hf⟩ := Option.ne_none_iff_exists'.1 hact
      rw [body_ready eff st i t hslot hst]
      have hev : (readyBranch eff st i).2 = [(i, some f, RUNNING)] := by
        rw [ready_compute eff st i t f hslot hf]
      refine ⟨MI_ready MAX eff st i t f hM hMI hslot hf, ?_⟩
      intro e he
      rw [hev, List.mem_singleton] at he
      subst he
      simp
    · rw [body_other eff st i hA hR]
      refine ⟨hMI, ?_⟩
      intro e he
      simp at he

theorem MI_loop (MAX : Nat) (eff : Nat → task_status_t → task_status_t)
    (hM : MAX < 4294967296) :
    ∀ (fuel : Nat) (st : SchedState) (k : Nat), MI MAX st →
      MI MAX (dispatchLoop eff st k fuel).1 ∧
        ∀ e ∈ (dispatchLoop eff st k fuel).2, e.2.1 ≠ none := by
  intro fuel
  induction fuel with
  | zero =>
    intro st k hMI
    exact ⟨hMI, by intro e he; simp [dispatchLoop] at he⟩
  | succ fuel ih =>
    intro st k hMI
    by_cases hk : k < st.tasks_counter
    · simp only [dispatchLoop, hk, if_true]
      obtain ⟨hbMI, hbev⟩ := MI_body_events MAX eff st k hM hMI
      obtain ⟨hlMI, hlev⟩ := ih (dispatchBody eff st k).1 (k + 1) hbMI
      refine ⟨hlMI, ?_⟩
      intro e he
      rcases List.mem_append.1 he with he | he
      · exact hbev e he
      · exact hlev e he
    · rw [loop_stop eff st k hk]
      exact ⟨hMI, by intro e he; simp at he⟩

theorem MI_dispatch (MAX : Nat) (eff : Nat → task_status_t → task_status_t)
    (st : SchedState) (hM : MAX < 4294967296) (hMI : MI MAX st) :
    MI MAX (scheduler_dispatch_task eff st).1 ∧
      ∀ e ∈ (scheduler_dispatch_task eff st).2, e.2.1 ≠ none :=
  MI_loop MAX eff hM st.tasks_counter st 0 hMI

theorem delete_on_all_inactive (st : SchedState) (i : Nat)
    (h : ∀ u ∈ st.task_array, u.ptask = none) :
    (scheduler_delete_task st i).1 = st :=
  delete_inactive st i (fun t ht => h t (List.getElem?_mem ht))

theorem init_pristine (MAX : Nat) :
    (scheduler_init (pristineState MAX)).1 = pristineState MAX := by
  have hall : ∀ u ∈ (pristineState MAX).task_array, u.ptask = none := by
    intro u hu
    rw [List.eq_of_mem_replicate hu]
  have hfold : ∀ (l : List Nat) (s : SchedState), (∀ u ∈ s.task_array, u.ptask = none) →
      l.foldl (fun s i => (scheduler_delete_task s i).1) s = s := by
    intro l
    induction l with
    | nil => intro s _; rfl
    | cons x xs ih =>
      intro s hs
      rw [List.foldl_cons, delete_on_all_inactive s x hs]
      exact ih s hs
  have h0 : ({ pristineState MAX with tasks_counter := 0, scheduler_status := 0 } : SchedState) =
      pristineState MAX := rfl
  unfold scheduler_init
  rw [h0, hfold _ _ hall]
  show (clearRunFlags (pristineState MAX), SCH_STATUS_OK).1 = pristineState MAX
  rw [pair_fst]
  unfold clearRunFlags
  have hbc : BIT_CLEAR (BIT_CLEAR (pristineState MAX).scheduler_status SCH_STATUS_FLAG)
      SCH_RUN_FLAG = 0 := by
    have hs0 : (pristineState MAX).scheduler_status = 0 := rfl
    rw [hs0]
    decide
  rw [hbc]
  rfl

theorem MI_pristine (MAX : Nat) : MI MAX (pristineState MAX) := by
  refine ⟨by simp [pristineState], Nat.zero_le MAX, ?_, ?_⟩
  · have hz : activeCount (pristineState MAX) = 0 := by
      unfold activeCount
      refine List.countP_eq_zero.2 ?_
      intro u hu
      rw [List.eq_of_mem_replicate hu]
      simp
    rw [hz]
    exact Nat.zero_le _
  · intro u hu _
    rw [List.eq_of_mem_replicate hu]
    exact ⟨rfl, rfl, rfl⟩

theorem reachable_MI (eff : Nat → task_status_t → task_status_t) (MAX : Nat)
    (s : SchedState) (hM : MAX < 4294967296) (h : Reachable eff MAX s) : MI MAX s := by
  induction h with
  | refl => rw [init_pristine]; exact MI_pristine MAX
  | tail hsteps hstep ih =>
    cases hstep with
    | add cb nm pm d p => exact MI_add MAX _ cb nm pm d p hM ih
    | del i => exact MI_delete MAX _ i hM ih
    | tick => exact MI_tick MAX _ ih
    | disp => exact (MI_dispatch MAX eff _ hM ih).1

/-- Claim C6: under every sequence of operations from a freshly initialized
scheduler with capacity MAX, the task counter stays in [0, MAX] (a natural
number, hence never below zero): register fails with SCH_ERROR and mutates
neither the counter nor the table whenever the counter equals the capacity,
and remove decrements the counter by exactly one when the addressed slot is
active (the counter being at least 1 then, so the uint32_t decrement cannot
wrap) and leaves it unchanged when the slot is inactive. -/
theorem C6_counter_bounds (eff : Nat → task_status_t → task_status_t) (MAX : Nat)
    (s : SchedState) (hM : MAX < 4294967296) (hreach : Reachable eff MAX s) :
    s.tasks_counter ≤ MAX ∧
    (s.tasks_counter = MAX →
      ∀ cb nm pm d p, (scheduler_add_task s cb nm pm d p).2 = SCH_ERROR ∧
        (scheduler_add_task s cb nm pm d p).1.tasks_counter = s.tasks_counter ∧
        (scheduler_add_task s cb nm pm d p).1.task_array = s.task_array) ∧
    (∀ i t, s.task_array[i]? = some t →
      (t.ptask ≠ none →
        1 ≤ s.tasks_counter ∧
        (scheduler_delete_task s i).1.tasks_counter = s.tasks_counter - 1) ∧
      (t.ptask = none →
        (scheduler_delete_task s i).1.tasks_counter = s.tasks_counter)) := by
  have hMI := reachable_MI eff MAX s hM hreach
  obtain ⟨hlen, hcnt, hac, hinact⟩ := hMI
  refine ⟨hcnt, ?_, ?_⟩
  · intro hfull cb nm pm d p
    have hnlt : ¬ s.tasks_counter < s.task_array.length := by omega
    rw [add_full s cb nm pm d p hnlt]
    exact ⟨rfl, rfl, rfl⟩
  · intro i t hslot
    constructor
    · intro ha
      have hone : 0 < activeCount s := by
        unfold activeCount
        refine List.countP_pos_iff.2 ⟨t, List.getElem?_mem hslot, ?_⟩
        exact Option.ne_none_iff_isSome.1 ha
      have hc1 : 1 ≤ s.tasks_counter := lt_of_lt_of_le hone hac
      refine ⟨hc1, ?_⟩
      rw [cleared_slot_delete s i t hslot ha]
      exact u32pred_eq hc1 (by omega)
    · intro hnone
      rw [delete_inactive s i (fun u hu => by rw [hslot] at hu; cases hu; exact hnone)]

theorem C6_witness :
    (scheduler_add_task (scheduler_init (pristineState 1)).1
        (some 1) none none 0 1).1.tasks_counter ≤ 1 ∧
    (scheduler_add_task (scheduler_add_task (scheduler_init (pristineState 1)).1
        (some 1) none none 0 1).1 (some 2) none none 0 1).2 = SCH_ERROR ∧
    (scheduler_add_task (scheduler_add_task (scheduler_init (pristineState 1)).1
        (some 1) none none 0 1).1 (some 2) none none 0 1).1.tasks_counter =
      (scheduler_add_task (scheduler_init (pristineState 1)).1
        (some 1) none none 0 1).1.tasks_counter ∧
    1 ≤ (scheduler_add_task (scheduler_init (pristineState 1)).1
        (some 1) none none 0 1).1.tasks_counter ∧
    (scheduler_delete_task (scheduler_add_task (scheduler_init (pristineState 1)).1
        (some 1) none none 0 1).1 0).1.tasks_counter =
      (scheduler_add_task (scheduler_init (pristineState 1)).1
        (some 1) none none 0 1).1.tasks_counter - 1 := by
  have h := C6_counter_bounds idEff 1
    (scheduler_add_task (scheduler_init (pristineState 1)).1 (some 1) none none 0 1).1
    (by decide)
    (Relation.ReflTransGen.tail Relation.ReflTransGen.refl
      (SchedStep.add _ (some 1) none none 0 1))
  have h2 := h.2.1 (by decide) (some 2) none none 0 1
  have h3 := (h.2.2 0 ⟨some 1, none, 0, 1, STOPPED, ⟨0, none⟩⟩ (by decide)).1 (by decide)
  exact ⟨h.1, h2.1, h2.2.1, h3.1, h3.2⟩

/-- Claim C9 (corrected): removing a registered task does not reset the
slot's period (nor its name): after init, register(period 5), remove(0) on a
capacity-1 scheduler, the slot is inactive (callback null) yet its period is
still 5, so an inactive slot's fields are not all neutral/zero. -/
theorem C9_counterexample :
    Reachable idEff 1
      (scheduler_delete_task (scheduler_add_task (scheduler_init (pristineState 1)).1
        (some 7) none none 3 5).1 0).1 ∧
    ((scheduler_delete_task (scheduler_add_task (scheduler_init (pristineState 1)).1
        (some 7) none none 3 5).1 0).1.task_array[0]?).map task_t.ptask = some none ∧
    ((scheduler_delete_task (scheduler_add_task (scheduler_init (pristineState 1)).1
        (some 7) none none 3 5).1 0).1.task_array[0]?).map task_t.period = some 5 ∧
    (5 : Nat) ≠ 0 :=
  ⟨Relation.ReflTransGen.tail
      (Relation.ReflTransGen.tail Relation.ReflTransGen.refl
        (SchedStep.add _ (some 7) none none 3 5))
      (SchedStep.del _ 0),
   by decide, by decide, by decide⟩

/-- Claim C9 (amended): in every reachable scheduler state, a slot is active
exactly when its callback reference is non-null, and every inactive slot has
status STOPPED, delay 0, handle index 0 and handle parameter null; the
period and the name are not reset by removal and may retain stale values. -/
theorem C9_amended_inactive_neutral (eff : Nat → task_status_t → task_status_t)
    (MAX : Nat) (s : SchedState) (hM : MAX < 4294967296)
    (hreach : Reachable eff MAX s) :
    ∀ (i : Nat) (t : task_t), s.task_array[i]? = some t → t.ptask = none →
      t.status = STOPPED ∧ t.delay = 0 ∧
        t.task_handler = { index := 0, parameter := none } := by
  have hMI := reachable_MI eff MAX s hM hreach
  intro i t hslot hnone
  exact hMI.2.2.2 t (List.getElem?_mem hslot) hnone

theorem C9_witness :
    (⟨none, none, 0, 0, STOPPED, ⟨0, none⟩⟩ : task_t).status = STOPPED ∧
    (⟨none, none, 0, 0, STOPPED, ⟨0, none⟩⟩ : task_t).delay = 0 ∧
    (⟨none, none, 0, 0, STOPPED, ⟨0, none⟩⟩ : task_t).task_handler =
      { index := 0, parameter := none } :=
  C9_amended_inactive_neutral idEff 1 (scheduler_init (pristineState 1)).1 (by decide)
    Relation.ReflTransGen.refl 0 ⟨none, none, 0, 0, STOPPED, ⟨0, none⟩⟩ rfl rfl

/-- Claim C10: in every state reachable through initialize, register,
remove, tick and dispatch with callbacks that do not mutate scheduler state,
every slot whose status is RUN_ALWAYS or READY holds a non-null callback
pointer; consequently every callback invocation performed by a dispatch pass
from such a state goes through a non-null function pointer (every recorded
invocation event carries a non-null callback). -/
theorem C10_no_null_invocation (MAX : Nat) (s : SchedState)
    (hM : MAX < 4294967296) (hreach : Reachable idEff MAX s) :
    (∀ (i : Nat) (t : task_t), s.task_array[i]? = some t →
      (t.status = RUN_ALWAYS ∨ t.status = READY) → t.ptask ≠ none) ∧
    (∀ e ∈ (scheduler_dispatch_task idEff s).2, e.2.1 ≠ none) := by
  have hMI := reachable_MI idEff MAX s hM hreach
  constructor
  · intro i t hslot hs
    refine MI_active_of_status MAX s i t hMI hslot ?_
    rcases hs with h | h <;> rw [h] <;> decide
  · exact (MI_dispatch MAX idEff s hM hMI).2

theorem C10_witness :
    (⟨some 1, none, 0, 0, RUN_ALWAYS, ⟨0, none⟩⟩ : task_t).ptask ≠ none ∧
    ((0 : Nat), (some 1 : Option Nat), RUN_ALWAYS).2.1 ≠ none := by
  have h := C10_no_null_invocation 1
    (scheduler_add_task (scheduler_init (pristineState 1)).1 (some 1) none none 0 0).1
    (by decide)
    (Relation.ReflTransGen.tail Relation.ReflTransGen.refl
      (SchedStep.add _ (some 1) none none 0 0))
  refine ⟨h.1 0 ⟨some 1, none, 0, 0, RUN_ALWAYS, ⟨0, none⟩⟩ (by decide) (Or.inl rfl), ?_⟩
  exact h.2 (0, some 1, RUN_ALWAYS) (by decide)

theorem tickTask_status_runalways (t : task_t) (h : t.status = RUN_ALWAYS) :
    (tickTask t).status = RUN_ALWAYS := by
  unfold tickTask readyTransition
  by_cases ha : t.ptask = none
  · simp [ha, h]
  · by_cases hd : t.delay = 0
    · by_cases hp : 0 < t.period <;> simp [ha, hd, h, hp]
    · simp [ha, hd, h]

theorem add_success_cb_some (MAX : Nat) (st : SchedState) (cb : Option Nat)
    (hMI : MI MAX st)
    (h1 : st.tasks_counter < st.task_array.length)
    (h2 : st.task_array.any (fun u => u.ptask == cb) = false) : cb ≠ none := by
  obtain ⟨hlen, hcnt, hac, hinact⟩ := hMI
  intro hcb
  subst hcb
  have hall : ∀ u ∈ st.task_array, u.ptask.isSome = true := by
    intro u hu
    cases hpu : u.ptask with
    | none =>
      have : st.task_array.any (fun v => v.ptask == none) = true :=
        List.any_eq_true.2 ⟨u, hu, by simp [hpu]⟩
      rw [h2] at this
      cases this
    | some g => rfl
  have hfull : activeCount st = st.task_array.length := List.countP_eq_length.2 hall
  omega

theorem NR_add (MAX : Nat) (st : SchedState) (cb : Option Nat) (nm : Option String)
    (pm : Option Nat) (d p : Nat) (hM : MAX < 4294967296) (h : NR MAX st) :
    NR MAX (scheduler_add_task st cb nm pm d p).1 := by
  have hMIb := MI_add MAX st cb nm pm d p hM h.1
  by_cases h1 : st.tasks_counter < st.task_array.length
  · cases h2 : st.task_array.any (fun u => u.ptask == cb) with
    | true =>
      rw [add_dup st cb nm pm d p h1 h2]
      rw [add_dup st cb nm pm d p h1 h2] at hMIb
      exact ⟨hMIb, h.2⟩
    | false =>
      have hcb : cb ≠ none := add_success_cb_some MAX st cb h.1 h1 h2
      have hsucc : u32succ st.tasks_counter = st.tasks_counter + 1 := by
        refine u32succ_eq ?_
        have := h.1.1
        omega
      rw [add_success st cb nm pm d p h1 h2]
      rw [add_success st cb nm pm d p h1 h2] at hMIb
      refine ⟨hMIb, ?_⟩
      intro i t hslot
      have hslot2 : (st.task_array.set st.tasks_counter
          (newTask cb nm pm d p st.tasks_counter))[i]? = some t := hslot
      show (t.ptask ≠ none ↔ i < u32succ st.tasks_counter) ∧
        (t.ptask ≠ none → t.period = 0 → t.status = RUN_ALWAYS)
      rw [hsucc]
      by_cases hci : i = st.tasks_counter
      · subst hci
        rw [List.getElem?_set_self (by simpa using h1)] at hslot2
        cases hslot2
        constructor
        · exact iff_of_true (by simpa [newTask] using hcb) (by omega)
        · intro _ hp
          have hp2 : p = 0 := by simpa [newTask] using hp
          simp [newTask, hp2]
      · rw [List.getElem?_set_ne (fun hh => hci hh.symm)] at hslot2
        obtain ⟨hiff, hper⟩ := h.2 i t hslot2
        constructor
        · constructor
          · intro ha
            have := hiff.1 ha
            omega
          · intro hl
            exact hiff.2 (by omega)
        · exact hper
  · rw [add_full st cb nm pm d p h1]
    rw [add_full st cb nm pm d p h1] at hMIb
    exact ⟨hMIb, h.2⟩

theorem NR_tick (MAX : Nat) (st : SchedState) (h : NR MAX st) :
    NR MAX (scheduler_update st).1 := by
  refine ⟨MI_tick MAX st h.1, ?_⟩
  intro i t2 hslot2
  rw [update_slot] at hslot2
  cases hslot : st.task_array[i]? with
  | none => rw [hslot] at hslot2; cases hslot2
  | some t =>
    rw [hslot] at hslot2
    have ht2 : t2 = tickTask t := by
      have : (some t).map tickTask = some t2 := hslot2
      simpa using this.symm
    subst ht2
    obtain ⟨hiff, hper⟩ := h.2 i t hslot
    obtain ⟨f1, f2, _, _⟩ := tickTask_fields t
    constructor
    · rw [f1]
      show t.ptask ≠ none ↔ i < st.tasks_counter
      exact hiff
    · intro ha hp
      rw [f1] at ha
      rw [f2] at hp
      exact tickTask_status_runalways t (hper ha hp)

theorem NR_body (MAX : Nat) (st : SchedState) (i : Nat)
    (hM : MAX < 4294967296) (h : NR MAX st) :
    NR MAX (dispatchBody idEff st i).1 := by
  by_cases hA : statusAt st i = some RUN_ALWAYS
  · obtain ⟨t, hslot, hst⟩ := statusAt_inv st i RUN_ALWAYS hA
    have hact : t.ptask ≠ none :=
      MI_active_of_status MAX st i t h.1 hslot (by rw [hst]; decide)
    obtain ⟨f, hf⟩ := Option.ne_none_iff_exists'.1 hact
    rw [body_runalways idEff st i t f hslot hst hf rfl]
    exact h
  · by_cases hR : statusAt st i = some READY
    · obtain ⟨t, hslot, hst⟩ := statusAt_inv st i READY hR
      have hact : t.ptask ≠ none :=
        MI_active_of_status MAX st i t h.1 hslot (by rw [hst]; decide)
      obtain ⟨f, hf⟩ := Option.ne_none_iff_exists'.1 hact
      have hper : t.period ≠ 0 := by
        intro hp
        have := (h.2 i t hslot).2 hact hp
        rw [hst] at this
        cases this
      rw [body_ready idEff st i t hslot hst, ready_compute idEff st i t f hslot hf]
      show NR MAX (if t.period = 0 then _ else _)
      rw [if_neg hper]
      have hMIb :
          MI MAX { st with task_array := st.task_array.set i ({ t with status := postStatus idEff f }) } := by
        refine MI_set_preserve MAX st i t _ h.1 hslot rfl ?_
        intro hh
        simp [hf] at hh
      refine ⟨hMIb, ?_⟩
      intro j u hslotu
      have hslotu2 : (st.task_array.set i ({ t with status := postStatus idEff f }))[j]? =
          some u := hslotu
      show (u.ptask ≠ none ↔ j < st.tasks_counter) ∧
        (u.ptask ≠ none → u.period = 0 → u.status = RUN_ALWAYS)
      by_cases hji : j = i
      · subst hji
        rw [List.getElem?_set_self (by simpa using (List.getElem?_eq_some.1 hslot).1)] at hslotu2
        cases hslotu2
        obtain ⟨hiff, _⟩ := h.2 j t hslot
        constructor
        · show t.ptask ≠ none ↔ j < st.tasks_counter
          exact hiff
        · intro _ hp
          exact absurd hp hper
      · rw [List.getElem?_set_ne (fun hh => hji hh.symm)] at hslotu2
        exact h.2 j u hslotu2
    · rw [body_other idEff st i hA hR]
      exact h

theorem NR_loop (MAX : Nat) (hM : MAX < 4294967296) :
    ∀ (fuel : Nat) (st : SchedState) (k : Nat), NR MAX st →
      NR MAX (dispatchLoop idEff st k fuel).1 := by
  intro fuel
  induction fuel with
  | zero => intro st k h; exact h
  | succ fuel ih =>
    intro st k h
    by_cases hk : k < st.tasks_counter
    · simp only [dispatchLoop, hk, if_true]
      exact ih (dispatchBody idEff st k).1 (k + 1) (NR_body MAX st k hM h)
    · rw [loop_stop idEff st k hk]
      exact h

theorem NR_pristine (MAX : Nat) : NR MAX (pristineState MAX) := by
  refine ⟨MI_pristine MAX, ?_⟩
  intro i t hslot
  have ht : t = ⟨none, none, 0, 0, STOPPED, ⟨0, none⟩⟩ :=
    List.eq_of_mem_replicate (List.getElem?_mem hslot)
  subst ht
  constructor
  · exact iff_of_false (by simp) (by show ¬ i < 0; omega)
  · intro ha
    simp at ha

theorem noremove_NR (MAX : Nat) (s : SchedState) (hM : MAX < 4294967296)
    (h : NoRemoveReachable MAX s) : NR MAX s := by
  induction h with
  | refl => rw [init_pristine]; exact NR_pristine MAX
  | tail hsteps hstep ih =>
    cases hstep with
    | add cb nm pm d p => exact NR_add MAX _ cb nm pm d p hM ih
    | tick => exact NR_tick MAX _ ih
    | disp => exact NR_loop MAX hM _ _ 0 ih

/-- Claim C4 (corrected): removing a task at a lower index can leave a
registered task outside the dispatch scan: on a capacity-2 scheduler, after
init, register(cb 1), register(cb 2), remove(0), the state is reachable,
slot 1 still holds callback 2 (an active slot), but the task counter is 1,
so slot 1's index is not below the counter and the following dispatch pass
performs no callback invocation at all. -/
theorem C4_counterexample :
    Reachable idEff 2
      (scheduler_delete_task (scheduler_add_task (scheduler_add_task
        (scheduler_init (pristineState 2)).1 (some 1) none none 1 1).1
        (some 2) none none 1 1).1 0).1 ∧
    ((scheduler_delete_task (scheduler_add_task (scheduler_add_task
        (scheduler_init (pristineState 2)).1 (some 1) none none 1 1).1
        (some 2) none none 1 1).1 0).1.task_array[1]?).map task_t.ptask =
      some (some 2) ∧
    (scheduler_delete_task (scheduler_add_task (scheduler_add_task
        (scheduler_init (pristineState 2)).1 (some 1) none none 1 1).1
        (some 2) none none 1 1).1 0).1.tasks_counter = 1 ∧
    ¬ (1 : Nat) < 1 ∧
    (scheduler_dispatch_task idEff
      (scheduler_delete_task (scheduler_add_task (scheduler_add_task
        (scheduler_init (pristineState 2)).1 (some 1) none none 1 1).1
        (some 2) none none 1 1).1 0).1).2 = [] :=
  ⟨Relation.ReflTransGen.tail
      (Relation.ReflTransGen.tail
        (Relation.ReflTransGen.tail Relation.ReflTransGen.refl
          (SchedStep.add _ (some 1) none none 1 1))
        (SchedStep.add _ (some 2) none none 1 1))
      (SchedStep.del _ 0),
   by decide, by decide, by decide, by decide⟩

/-- Claim C4 (amended): in every state reachable from a freshly initialized
scheduler by register, tick and dispatch calls without any remove, a slot is
active exactly when its index is strictly below the task counter, so
dispatch's scan over indices below the counter considers every registered
task; a remove of a task below the highest active index breaks this (see the
counterexample) by leaving an active slot at an index not below the counter,
which dispatch skips and a later registration overwrites. -/
theorem C4_amended_no_remove_gapless (MAX : Nat) (s : SchedState)
    (hM : MAX < 4294967296) (h : NoRemoveReachable MAX s) :
    ∀ (i : Nat) (t : task_t), s.task_array[i]? = some t →
      (t.ptask ≠ none ↔ i < s.tasks_counter) := by
  have hNR := noremove_NR MAX s hM h
  intro i t hslot
  exact (hNR.2 i t hslot).1

theorem C4_witness :
    ((⟨some 1, none, 0, 1, STOPPED, ⟨0, none⟩⟩ : task_t).ptask ≠ none ↔
      0 < (scheduler_add_task (scheduler_init (pristineState 1)).1
        (some 1) none none 0 1).1.tasks_counter) :=
  C4_amended_no_remove_gapless 1
    (scheduler_add_task (scheduler_init (pristineState 1)).1 (some 1) none none 0 1).1
    (by decide)
    (Relation.ReflTransGen.tail Relation.ReflTransGen.refl
      (NoRemoveStep.add _ (some 1) none none 0 1))
    0 ⟨some 1, none, 0, 1, STOPPED, ⟨0, none⟩⟩ (by decide)

theorem dispatch_once_runalways (eff : Nat → task_status_t → task_status_t)
    (st : SchedState) (i : Nat) (t : task_t) (f : Nat)
    (hw : st.tasks_counter < 4294967296)
    (hslot : st.task_array[i]? = some t) (hst : t.status = RUN_ALWAYS)
    (hf : t.ptask = some f) (heff : eff f RUN_ALWAYS = RUN_ALWAYS)
    (hreach : i < (dispatchLoop eff st 0 i).1.tasks_counter) :
    (scheduler_dispatch_task eff st).2.filter (fun e => e.1 == i) =
      [(i, some f, RUN_ALWAYS)] := by
  have hsplit := dispatch_split_at eff st i hw hreach
  have hslotPre : (dispatchLoop eff st 0 i).1.task_array[i]? = some t := by
    rw [loop_frame eff i st 0 i (Or.inr (by omega))]
    exact hslot
  have hbody : dispatchBody eff (dispatchLoop eff st 0 i).1 i =
      ((dispatchLoop eff st 0 i).1, [(i, some f, RUN_ALWAYS)]) :=
    body_runalways eff _ i t f hslotPre hst hf heff
  rw [hsplit]
  simp only [List.filter_append]
  have hpre : (dispatchLoop eff st 0 i).2.filter (fun e => e.1 == i) = [] := by
    refine List.filter_eq_nil_iff.2 (fun e he => ?_)
    have := loop_events_range eff i st 0 e he
    simp only [beq_iff_eq]
    omega
  have hpost : (dispatchLoop eff (dispatchBody eff (dispatchLoop eff st 0 i).1 i).1
      (i + 1) (st.tasks_counter - i - 1)).2.filter (fun e => e.1 == i) = [] := by
    refine List.filter_eq_nil_iff.2 (fun e he => ?_)
    have := loop_events_range eff (st.tasks_counter - i - 1) _ (i + 1) e he
    simp only [beq_iff_eq]
    omega
  rw [hpre, hpost, hbody]
  simp

theorem C5_loop_inv (eff : Nat → task_status_t → task_status_t) (i c : Nat)
    (heff : eff c RUN_ALWAYS = RUN_ALWAYS) :
    ∀ (fuel : Nat) (st : SchedState) (k : Nat),
      (∃ t, st.task_array[i]? = some t ∧ t.ptask = some c ∧
        t.status = RUN_ALWAYS ∧ t.period = 0) →
      (∃ t, (dispatchLoop eff st k fuel).1.task_array[i]? = some t ∧ t.ptask = some c ∧
        t.status = RUN_ALWAYS ∧ t.period = 0) := by
  intro fuel
  induction fuel with
  | zero => intro st k hQ; exact hQ
  | succ fuel ih =>
    intro st k hQ
    by_cases hk : k < st.tasks_counter
    · simp only [dispatchLoop, hk, if_true]
      refine ih (dispatchBody eff st k).1 (k + 1) ?_
      by_cases hki : k = i
      · subst hki
        obtain ⟨t, hslot, hc, hs, hp⟩ := hQ
        rw [body_runalways eff st k t c hslot hs hc heff]
        exact ⟨t, hslot, hc, hs, hp⟩
      · obtain ⟨t, hslot, hc, hs, hp⟩ := hQ
        refine ⟨t, ?_, hc, hs, hp⟩
        rw [(body_dispSkel eff st k).2.2 i (fun hh => hki hh.symm)]
        exact hslot
    · rw [loop_stop eff st k hk]
      exact hQ

theorem C5_chain_inv (eff : Nat → task_status_t → task_status_t) (i c : Nat)
    (heff : eff c RUN_ALWAYS = RUN_ALWAYS) :
    ∀ (a b : SchedState), holdsStep eff i c a b →
      ((∃ t, a.task_array[i]? = some t ∧ t.ptask = some c ∧
          t.status = RUN_ALWAYS ∧ t.period = 0) ∧ a.tasks_counter < 4294967296) →
      ((∃ t, b.task_array[i]? = some t ∧ t.ptask = some c ∧
          t.status = RUN_ALWAYS ∧ t.period = 0) ∧ b.tasks_counter < 4294967296) := by
  intro a b hstep hQ
  obtain ⟨⟨t, hslot, hc, hs, hp⟩, hw⟩ := hQ
  obtain ⟨hstep, hholds⟩ := hstep
  cases hstep with
  | add cb nm pm d p =>
    by_cases h1 : a.tasks_counter < a.task_array.length
    · cases h2 : a.task_array.any (fun u => u.ptask == cb) with
      | true =>
        rw [add_dup a cb nm pm d p h1 h2]
        exact ⟨⟨t, hslot, hc, hs, hp⟩, hw⟩
      | false =>
        by_cases hci : a.tasks_counter = i
        · exfalso
          unfold slotHolds at hholds
          rw [add_success a cb nm pm d p h1 h2] at hholds
          have hh2 : ((a.task_array.set a.tasks_counter
              (newTask cb nm pm d p a.tasks_counter))[i]?).map task_t.ptask =
              some (some c) := hholds
          rw [hci] at hh2
          rw [List.getElem?_set_self (by rw [← hci]; simpa using h1)] at hh2
          have hcb : cb = some c := by simpa [newTask] using hh2
          subst hcb
          have hany : a.task_array.any (fun u => u.ptask == some c) = true :=
            List.any_eq_true.2 ⟨t, List.getElem?_mem hslot, by simp [hc]⟩
          rw [h2] at hany
          cases hany
        · rw [add_success a cb nm pm d p h1 h2]
          refine ⟨⟨t, ?_, hc, hs, hp⟩, u32succ_lt _⟩
          show (a.task_array.set a.tasks_counter (newTask cb nm pm d p a.tasks_counter))[i]? =
            some t
          rw [List.getElem?_set_ne hci]
          exact hslot
    · rw [add_full a cb nm pm d p h1]
      exact ⟨⟨t, hslot, hc, hs, hp⟩, hw⟩
  | del k =>
    rcases delete_cases a k with hb | ⟨u, hslotk, hau, hb⟩
    · rw [hb]
      exact ⟨⟨t, hslot, hc, hs, hp⟩, hw⟩
    · by_cases hki : k = i
      · exfalso
        have hlen : i < a.task_array.length := (List.getElem?_eq_some.1 hslot).1
        unfold slotHolds at hholds
        rw [hb] at hholds
        have hh2 : ((a.task_array.set k (clearedTask u))[i]?).map task_t.ptask =
            some (some c) := hholds
        rw [hki] at hh2
        rw [List.getElem?_set_self hlen] at hh2
        simp [clearedTask] at hh2
      · rw [hb]
        refine ⟨⟨t, ?_, hc, hs, hp⟩, u32pred_lt _⟩
        show (a.task_array.set k (clearedTask u))[i]? = some t
        rw [List.getElem?_set_ne hki]
        exact hslot
  | tick =>
    refine ⟨⟨tickTask t, ?_, ?_, ?_, ?_⟩, hw⟩
    · rw [update_slot, hslot]
      rfl
    · rw [(tickTask_fields t).1]
      exact hc
    · exact tickTask_status_runalways t hs
    · rw [(tickTask_fields t).2.1]
      exact hp
  | disp =>
    refine ⟨C5_loop_inv eff i c heff a.tasks_counter a 0 ⟨t, hslot, hc, hs, hp⟩, ?_⟩
    exact (loop_counter eff a.tasks_counter a 0 hw).2

/-- Claim C5 (corrected): a task registered with period 0 can be silently
starved by dispatch after a lower-indexed removal: on a capacity-2
scheduler, after init, register(cb 1, period 1), register(cb 2, period 0)
— which makes slot 1 RUN_ALWAYS — and remove(0), the state is reachable,
slot 1 still holds callback 2 with status RUN_ALWAYS, yet a dispatch pass
performs no invocation of callback 2 at all (the scan stops at the task
counter 1). -/
theorem C5_counterexample :
    statusAt (scheduler_add_task (scheduler_add_task
      (scheduler_init (pristineState 2)).1 (some 1) none none 1 1).1
      (some 2) none none 0 0).1 1 = some RUN_ALWAYS ∧
    Reachable idEff 2
      (scheduler_delete_task (scheduler_add_task (scheduler_add_task
        (scheduler_init (pristineState 2)).1 (some 1) none none 1 1).1
        (some 2) none none 0 0).1 0).1 ∧
    ((scheduler_delete_task (scheduler_add_task (scheduler_add_task
        (scheduler_init (pristineState 2)).1 (some 1) none none 1 1).1
        (some 2) none none 0 0).1 0).1.task_array[1]?).map task_t.ptask =
      some (some 2) ∧
    statusAt (scheduler_delete_task (scheduler_add_task (scheduler_add_task
        (scheduler_init (pristineState 2)).1 (some 1) none none 1 1).1
        (some 2) none none 0 0).1 0).1 1 = some RUN_ALWAYS ∧
    (scheduler_dispatch_task idEff
      (scheduler_delete_task (scheduler_add_task (scheduler_add_task
        (scheduler_init (pristineState 2)).1 (some 1) none none 1 1).1
        (some 2) none none 0 0).1 0).1).2.filter (fun e => e.2.1 == some 2) = [] :=
  ⟨by decide,
   Relation.ReflTransGen.tail
      (Relation.ReflTransGen.tail
        (Relation.ReflTransGen.tail Relation.ReflTransGen.refl
          (SchedStep.add _ (some 1) none none 1 1))
        (SchedStep.add _ (some 2) none none 0 0))
      (SchedStep.del _ 0),
   by decide, by decide, by decide⟩

/-- Claim C5 (amended): a successful register with period 0 makes the slot
RUN_ALWAYS immediately; through every later scheduler step after which the
slot still holds that callback (the task remains registered, its own
callback not mutating scheduler state), the slot stays RUN_ALWAYS; and a
dispatch pass from such a state invokes the callback exactly once provided
its scan reaches the slot — a pass whose counter has dropped to at most the
slot index (after removals of lower-indexed tasks, see the counterexample)
does not invoke it. -/
theorem C5_amended_runalways_while_registered
    (eff : Nat → task_status_t → task_status_t) (st : SchedState) (c : Nat)
    (nm : Option String) (pm : Option Nat) (d : Nat)
    (hret : (scheduler_add_task st (some c) nm pm d 0).2 = SCH_STATUS_OK)
    (heff : eff c RUN_ALWAYS = RUN_ALWAYS)
    (s2 : SchedState)
    (hchain : Relation.ReflTransGen (holdsStep eff st.tasks_counter c)
      (scheduler_add_task st (some c) nm pm d 0).1 s2) :
    statusAt (scheduler_add_task st (some c) nm pm d 0).1 st.tasks_counter =
      some RUN_ALWAYS ∧
    statusAt s2 st.tasks_counter = some RUN_ALWAYS ∧
    (st.tasks_counter < (dispatchLoop eff s2 0 st.tasks_counter).1.tasks_counter →
      (scheduler_dispatch_task eff s2).2.filter (fun e => e.1 == st.tasks_counter) =
        [(st.tasks_counter, some c, RUN_ALWAYS)]) := by
  obtain ⟨h1, h2⟩ := add_ret_ok st (some c) nm pm d 0 hret
  have hbase : (∃ t, (scheduler_add_task st (some c) nm pm d 0).1.task_array[st.tasks_counter]? =
      some t ∧ t.ptask = some c ∧ t.status = RUN_ALWAYS ∧ t.period = 0) ∧
      (scheduler_add_task st (some c) nm pm d 0).1.tasks_counter < 4294967296 := by
    rw [add_success st (some c) nm pm d 0 h1 h2]
    refine ⟨⟨newTask (some c) nm pm d 0 st.tasks_counter, ?_, by simp [newTask],
      by simp [newTask], by simp [newTask]⟩, u32succ_lt _⟩
    show (st.task_array.set st.tasks_counter
      (newTask (some c) nm pm d 0 st.tasks_counter))[st.tasks_counter]? = some _
    exact List.getElem?_set_self (by simpa using h1)
  have hinv : (∃ t, s2.task_array[st.tasks_counter]? = some t ∧ t.ptask = some c ∧
      t.status = RUN_ALWAYS ∧ t.period = 0) ∧ s2.tasks_counter < 4294967296 := by
    induction hchain with
    | refl => exact hbase
    | tail hsteps hstep ih => exact C5_chain_inv eff st.tasks_counter c heff _ _ hstep ih
  obtain ⟨⟨t1, hslot1, hc1, hs1, hp1⟩, hw1⟩ := hbase
  obtain ⟨⟨t2, hslot2, hc2, hs2st, hp2⟩, hw2⟩ := hinv
  refine ⟨?_, ?_, ?_⟩
  · rw [statusAt_some _ _ _ hslot1, hs1]
  · rw [statusAt_some _ _ _ hslot2, hs2st]
  · intro hreach
    exact dispatch_once_runalways eff s2 st.tasks_counter t2 c hw2 hslot2 hs2st hc2 heff hreach

theorem C5_witness :
    (scheduler_add_task (scheduler_init (pristineState 1)).1 (some 2) none none 0 0).2 =
      SCH_STATUS_OK ∧
    statusAt (scheduler_add_task (scheduler_init (pristineState 1)).1
      (some 2) none none 0 0).1 0 = some RUN_ALWAYS ∧
    (scheduler_dispatch_task idEff (scheduler_add_task (scheduler_init (pristineState 1)).1
      (some 2) none none 0 0).1).2.filter (fun e => e.1 == 0) =
      [(0, some 2, RUN_ALWAYS)] := by
  have h := C5_amended_runalways_while_registered idEff (scheduler_init (pristineState 1)).1
    2 none none 0 (by decide) rfl
    (scheduler_add_task (scheduler_init (pristineState 1)).1 (some 2) none none 0 0).1
    Relation.ReflTransGen.refl
  exact ⟨by decide, h.1, h.2.2 (by decide)⟩
